import Mathlib

/-!
# Verification of the motion-data ingestion pipeline

A shallow embedding of the repository's `src/utils/dataParser.ts` — the
motion-capture parsing and biomechanics-derivation pipeline — together with
proofs and refutations of the specification's claims about it.

JavaScript `number` arithmetic is modelled by exact real arithmetic (`ℝ`);
`NaN` values produced by `Number(...)` are modelled by `Option ℝ` with `none`
playing the role of `NaN` (both are then collapsed by the `|| 0` idiom, see
`orZero`).  JS objects keyed by frame number are modelled as association
lists (an arbitrary iteration order); object lookup is `List.lookup`.  The
unseeded `Math.random()` stream is modelled by an explicit parameter
`rand : ℕ → ℝ`, consumed in call order.  All functions are total, mirroring
the fact that no operation in the source throws.
-/

noncomputable section

namespace PitchVision

open Real

/-- Quaternion record exactly as in the source (`x, y, z, w`, `w` real part). -/
@[ext]
structure JointRotation where
  x : ℝ
  y : ℝ
  z : ℝ
  w : ℝ

/-- 3D joint-center position record as in the source. -/
structure JointCenter where
  x : ℝ
  y : ℝ
  z : ℝ

/-- Per-frame metrics record, fields exactly as in the source. -/
structure BaseballMetric where
  pelvisVelocity : ℝ
  trunkVelocity : ℝ
  elbowTorque : ℝ
  shoulderTorque : ℝ
  pelvisTwistVelocity : ℝ
  shoulderTwistVelocity : ℝ
  shoulderExternalRotation : ℝ
  trunkSeparation : ℝ
  timestamp : ℝ

/-- Result of `quaternionToEuler` (roll `x`, pitch `y`, yaw `z`, radians). -/
structure EulerAngles where
  x : ℝ
  y : ℝ
  z : ℝ

/-- The fixed joint enumeration `JOINT_NAMES` of the source (17 joints). -/
def JOINT_NAMES : List String :=
  ["Head", "Neck", "R_Shoulder", "R_Elbow", "R_Wrist",
   "L_Shoulder", "L_Elbow", "L_Wrist", "Pelvis",
   "R_Hip", "R_Knee", "R_Ankle", "R_Foot",
   "L_Hip", "L_Knee", "L_Ankle", "L_Foot"]

/-- JS `Math.atan2 y x` (with `atan2 0 0 = 0`, as in JS for `+0`). -/
def atan2 (y x : ℝ) : ℝ :=
  if 0 < x then arctan (y / x)
  else if x < 0 then
    (if 0 ≤ y then arctan (y / x) + π else arctan (y / x) - π)
  else if 0 < y then π / 2
  else if y < 0 then -(π / 2)
  else 0

/-- JS `Math.sign`. -/
def jsSign (x : ℝ) : ℝ :=
  if 0 < x then 1 else if x < 0 then -1 else 0

/-- `BiomechanicsCalculator.quaternionToEuler` (dataParser.ts:89-117):
normalizes the quaternion (identity-guarding magnitudes below `0.001`), then
extracts intrinsic roll/pitch/yaw with the pitch `asin` argument saturated to
`±π/2` when `|sinp| ≥ 1`. -/
def quaternionToEuler (q : JointRotation) : EulerAngles :=
  let magnitude := Real.sqrt (q.x * q.x + q.y * q.y + q.z * q.z + q.w * q.w)
  if magnitude < 0.001 then ⟨0, 0, 0⟩
  else
    let nx := q.x / magnitude
    let ny := q.y / magnitude
    let nz := q.z / magnitude
    let nw := q.w / magnitude
    let sinr_cosp := 2 * (nw * nx + ny * nz)
    let cosr_cosp := 1 - 2 * (nx * nx + ny * ny)
    let roll := atan2 sinr_cosp cosr_cosp
    let sinp := 2 * (nw * ny - nz * nx)
    let pitch := if 1 ≤ |sinp| then jsSign sinp * π / 2 else arcsin sinp
    let siny_cosp := 2 * (nw * nz + nx * ny)
    let cosy_cosp := 1 - 2 * (ny * ny + nz * nz)
    let yaw := atan2 siny_cosp cosy_cosp
    ⟨roll, pitch, yaw⟩

/-- The source's two-step yaw-difference wrap correction
(dataParser.ts:128-130): subtract `2π` above `π`, then add `2π` below `-π`. -/
def wrapAngle (δ : ℝ) : ℝ :=
  let d1 := if π < δ then δ - 2 * π else δ
  if d1 < -π then d1 + 2 * π else d1

/-- `BiomechanicsCalculator.calculateTwistVelocity` (dataParser.ts:119-134). -/
def calculateTwistVelocity (currentRot : JointRotation)
    (prevRot : Option JointRotation) (deltaTime : ℝ) : ℝ :=
  match prevRot with
  | none => 0
  | some prev =>
    if deltaTime ≤ 0 then 0
    else
      let deltaYaw := (quaternionToEuler currentRot).z - (quaternionToEuler prev).z
      (wrapAngle deltaYaw / deltaTime) * (180 / π)

/-! ## Basic facts about `atan2` -/

theorem atan2_mem_Ioc (y x : ℝ) : -π < atan2 y x ∧ atan2 y x ≤ π := by
  have hpi : (0:ℝ) < π := Real.pi_pos
  have h1 := Real.arctan_lt_pi_div_two (y / x)
  have h2 := Real.neg_pi_div_two_lt_arctan (y / x)
  unfold atan2
  split_ifs with hx hx' hy hy' hy''
  · constructor <;> linarith
  · -- x < 0, 0 ≤ y : arctan (y/x) ≤ 0
    have hyx : y / x ≤ 0 := div_nonpos_iff.mpr (Or.inl ⟨hy, le_of_lt hx'⟩)
    have h3 : arctan (y / x) ≤ 0 := by
      have := Real.arctan_strictMono.monotone hyx
      rwa [Real.arctan_zero] at this
    constructor <;> linarith
  · -- x < 0, y < 0 : arctan (y/x) > 0
    push_neg at hy
    have hyx : 0 < y / x := div_pos_of_neg_of_neg hy hx'
    have h3 : 0 < arctan (y / x) := by
      have := Real.arctan_strictMono hyx
      rwa [Real.arctan_zero] at this
    constructor <;> linarith
  · constructor <;> linarith
  · constructor <;> linarith
  · constructor <;> linarith

theorem atan2_zero_one : atan2 0 1 = 0 := by
  unfold atan2
  norm_num [Real.arctan_zero]

theorem atan2_zero_zero : atan2 0 0 = 0 := by
  unfold atan2
  norm_num

theorem atan2_one_zero : atan2 1 0 = π / 2 := by
  unfold atan2
  norm_num

/-- For `θ ∈ (-π, π]`, `atan2 (sin θ) (cos θ) = θ`. -/
theorem atan2_sin_cos {θ : ℝ} (h₁ : -π < θ) (h₂ : θ ≤ π) :
    atan2 (Real.sin θ) (Real.cos θ) = θ := by
  have hpi : (0:ℝ) < π := Real.pi_pos
  rcases lt_trichotomy 0 (Real.cos θ) with hc | hc | hc
  · -- cos θ > 0 ⇒ θ ∈ (-π/2, π/2)
    have hθu : θ < π / 2 := by
      by_contra hle
      push_neg at hle
      have : Real.cos θ ≤ 0 :=
        Real.cos_nonpos_of_pi_div_two_le_of_le hle (by linarith)
      linarith
    have hθl : -(π / 2) < θ := by
      by_contra hle
      push_neg at hle
      have h' : π / 2 ≤ -θ := by linarith
      have : Real.cos (-θ) ≤ 0 :=
        Real.cos_nonpos_of_pi_div_two_le_of_le h' (by linarith)
      rw [Real.cos_neg] at this
      linarith
    unfold atan2
    rw [if_pos hc, ← Real.tan_eq_sin_div_cos, Real.arctan_tan hθl hθu]
  · -- cos θ = 0 ⇒ θ = ±π/2
    obtain ⟨k, hk⟩ := Real.cos_eq_zero_iff.mp hc.symm
    have hθk : θ = (2 * (k:ℝ) + 1) * π / 2 := hk
    have hkR1 : (2 * (k:ℝ) + 1) ≤ 2 := by nlinarith [hθk ▸ h₂]
    have hkR2 : (-2 : ℝ) < 2 * (k:ℝ) + 1 := by nlinarith [hθk ▸ h₁]
    have hk1 : 2 * k + 1 ≤ 2 := by exact_mod_cast hkR1
    have hk2 : (-2 : ℤ) < 2 * k + 1 := by exact_mod_cast hkR2
    have hk0 : k = 0 ∨ k = -1 := by omega
    rcases hk0 with rfl | rfl
    · -- θ = π/2, sin θ = 1
      have hθ : θ = π / 2 := by rw [hθk]; norm_num
      subst hθ
      rw [Real.sin_pi_div_two, Real.cos_pi_div_two]
      exact atan2_one_zero
    · -- θ = -π/2, sin θ = -1
      have hθ : θ = -(π / 2) := by rw [hθk]; push_cast; ring
      subst hθ
      rw [Real.sin_neg, Real.cos_neg, Real.sin_pi_div_two, Real.cos_pi_div_two]
      unfold atan2
      norm_num
  · -- cos θ < 0
    rcases le_or_lt 0 (Real.sin θ) with hs | hs
    · -- θ ∈ (π/2, π]
      have hθl : π / 2 < θ := by
        by_contra hle
        push_neg at hle
        rcases le_or_lt 0 θ with h0 | h0
        · have : 0 < Real.cos θ ∨ Real.cos θ = 0 := by
            rcases lt_or_eq_of_le (Real.cos_nonneg_of_mem_Icc ⟨by linarith, hle⟩) with h | h
            · left; exact h
            · right; exact h.symm
          rcases this with h | h <;> linarith
        · -- θ < 0 and sin θ ≥ 0 and θ > -π ⇒ contradiction unless sin θ = 0
          have hsneg : Real.sin θ < 0 := by
            have := Real.sin_pos_of_pos_of_lt_pi (x := -θ) (by linarith) (by linarith)
            rw [Real.sin_neg] at this
            linarith
          linarith
      unfold atan2
      rw [if_neg (by linarith), if_pos hc, if_pos hs]
      have h2 : θ - π < π / 2 := by linarith
      have h1' : -(π / 2) < θ - π := by linarith
      have htan : Real.sin θ / Real.cos θ = Real.tan (θ - π) := by
        rw [Real.tan_eq_sin_div_cos, Real.sin_sub_pi, Real.cos_sub_pi]
        rw [div_neg, neg_div, neg_neg]
      rw [htan, Real.arctan_tan h1' h2]
      ring
    · -- θ ∈ (-π, -π/2)
      have hθu : θ < -(π / 2) := by
        by_contra hle
        push_neg at hle
        rcases le_or_lt θ 0 with h0 | h0
        · have : 0 ≤ Real.cos θ := by
            have := Real.cos_nonneg_of_mem_Icc (x := θ) ⟨by linarith, by linarith⟩
            exact this
          linarith
        · have hθpi : θ < π := by
            rcases lt_or_eq_of_le h₂ with h | h
            · exact h
            · exfalso; rw [h, Real.sin_pi] at hs; exact lt_irrefl 0 hs
          have : 0 < Real.sin θ := Real.sin_pos_of_pos_of_lt_pi h0 hθpi
          linarith
      unfold atan2
      rw [if_neg (by linarith), if_pos hc, if_neg (by linarith)]
      have h2 : θ + π < π / 2 := by linarith
      have h1' : -(π / 2) < θ + π := by linarith
      have htan : Real.sin θ / Real.cos θ = Real.tan (θ + π) := by
        rw [Real.tan_eq_sin_div_cos, Real.sin_add_pi, Real.cos_add_pi]
        rw [div_neg, neg_div, neg_neg]
      rw [htan, Real.arctan_tan h1' h2]
      ring

/-! ## Unfolding `quaternionToEuler` on unit quaternions -/

/-- On a quaternion of unit norm the defensive normalization of
`quaternionToEuler` is the identity, exposing the three extraction formulas. -/
theorem quaternionToEuler_unit (q : JointRotation)
    (hq : q.x * q.x + q.y * q.y + q.z * q.z + q.w * q.w = 1) :
    quaternionToEuler q =
      ⟨atan2 (2 * (q.w * q.x + q.y * q.z)) (1 - 2 * (q.x * q.x + q.y * q.y)),
       (if 1 ≤ |2 * (q.w * q.y - q.z * q.x)| then jsSign (2 * (q.w * q.y - q.z * q.x)) * π / 2
        else arcsin (2 * (q.w * q.y - q.z * q.x))),
       atan2 (2 * (q.w * q.z + q.x * q.y)) (1 - 2 * (q.y * q.y + q.z * q.z))⟩ := by
  unfold quaternionToEuler
  rw [hq, Real.sqrt_one]
  rw [if_neg (by norm_num)]
  norm_num

/-- A pure yaw rotation quaternion (rotation by `θ` about the vertical axis). -/
def yawQ (θ : ℝ) : JointRotation :=
  ⟨0, 0, Real.sin (θ / 2), Real.cos (θ / 2)⟩

theorem yawQ_unit (θ : ℝ) :
    (yawQ θ).x * (yawQ θ).x + (yawQ θ).y * (yawQ θ).y +
      (yawQ θ).z * (yawQ θ).z + (yawQ θ).w * (yawQ θ).w = 1 := by
  have h := Real.sin_sq_add_cos_sq (θ / 2)
  simp only [yawQ]
  nlinarith [h]

/-- The yaw extracted from a pure yaw quaternion is the original angle,
for `θ ∈ (-π, π]`. -/
theorem quaternionToEuler_yawQ_z {θ : ℝ} (h₁ : -π < θ) (h₂ : θ ≤ π) :
    (quaternionToEuler (yawQ θ)).z = θ := by
  rw [quaternionToEuler_unit (yawQ θ) (yawQ_unit θ)]
  show atan2 (2 * (Real.cos (θ / 2) * Real.sin (θ / 2) + 0 * 0))
      (1 - 2 * (0 * 0 + Real.sin (θ / 2) * Real.sin (θ / 2))) = θ
  have hs : 2 * (Real.cos (θ / 2) * Real.sin (θ / 2) + 0 * 0) = Real.sin θ := by
    have h := Real.sin_two_mul (θ / 2)
    rw [show 2 * (θ / 2) = θ by ring] at h
    linarith
  have hc : 1 - 2 * (0 * 0 + Real.sin (θ / 2) * Real.sin (θ / 2)) = Real.cos θ := by
    have h := Real.cos_two_mul (θ / 2)
    rw [show 2 * (θ / 2) = θ by ring] at h
    have h2 := Real.sin_sq_add_cos_sq (θ / 2)
    nlinarith
  rw [hs, hc]
  exact atan2_sin_cos h₁ h₂

/-- The roll extracted from a pure yaw quaternion is `0`. -/
theorem quaternionToEuler_yawQ_x (θ : ℝ) : (quaternionToEuler (yawQ θ)).x = 0 := by
  rw [quaternionToEuler_unit (yawQ θ) (yawQ_unit θ)]
  show atan2 (2 * (Real.cos (θ / 2) * 0 + 0 * Real.sin (θ / 2)))
      (1 - 2 * (0 * 0 + 0 * 0)) = 0
  norm_num [atan2_zero_one]

/-- The yaw computed by `quaternionToEuler` always lies in `(-π, π]`. -/
theorem quaternionToEuler_z_mem (q : JointRotation) :
    -π < (quaternionToEuler q).z ∧ (quaternionToEuler q).z ≤ π := by
  have hpi : (0:ℝ) < π := Real.pi_pos
  simp only [quaternionToEuler]
  split_ifs
  · exact ⟨by simpa using neg_lt_zero.mpr hpi, by simpa using le_of_lt hpi⟩
  · exact atan2_mem_Ioc _ _
  · exact atan2_mem_Ioc _ _

/-- `wrapAngle` maps any raw difference in `(-2π, 2π)` into `[-π, π]`,
subtracting `2π` above `π` and adding `2π` below `-π`. -/
theorem wrapAngle_spec {δ : ℝ} (h₁ : -(2 * π) < δ) (h₂ : δ < 2 * π) :
    (-π ≤ wrapAngle δ ∧ wrapAngle δ ≤ π) ∧
      (π < δ → wrapAngle δ = δ - 2 * π) ∧
      (δ < -π → wrapAngle δ = δ + 2 * π) ∧
      (-π ≤ δ → δ ≤ π → wrapAngle δ = δ) := by
  have hpi : (0:ℝ) < π := Real.pi_pos
  simp only [wrapAngle]
  split_ifs with ha hb hcc
  · constructor
    · constructor <;> linarith
    · refine ⟨fun _ => by linarith, fun h => by linarith, fun h _ => by linarith⟩
  · constructor
    · constructor <;> linarith
    · refine ⟨fun _ => rfl, fun h => by linarith, fun h _ => by linarith⟩
  · constructor
    · constructor <;> linarith
    · refine ⟨fun h => by linarith, fun _ => rfl, fun _ h => by linarith⟩
  · constructor
    · constructor <;> linarith
    · refine ⟨fun h => by linarith, fun h => by linarith, fun _ _ => rfl⟩

/-- C2: `calculateTwistVelocity` returns `0` when the previous sample is
absent or `deltaTime ≤ 0`; otherwise it is the yaw difference, wrap-corrected
into `[-π, π]` by adding/subtracting `2π` when the raw difference exceeds
`±π`, divided by `deltaTime` and converted to degrees.  For yaws `+179°` and
`-179°` at `deltaTime = 1/300` s it reports `600 °/s` (from the true `2°`
delta), not the naive `358°`-based `107400 °/s`. -/
theorem c2_twist_velocity_spec (currentRot : JointRotation)
    (prevRot : Option JointRotation) (deltaTime : ℝ) :
    (calculateTwistVelocity currentRot none deltaTime = 0) ∧
    (deltaTime ≤ 0 → calculateTwistVelocity currentRot prevRot deltaTime = 0) ∧
    (∀ prev, prevRot = some prev → 0 < deltaTime →
      calculateTwistVelocity currentRot prevRot deltaTime =
        (wrapAngle ((quaternionToEuler currentRot).z - (quaternionToEuler prev).z)
          / deltaTime) * (180 / π) ∧
      -π ≤ wrapAngle ((quaternionToEuler currentRot).z - (quaternionToEuler prev).z) ∧
      wrapAngle ((quaternionToEuler currentRot).z - (quaternionToEuler prev).z) ≤ π) ∧
    (calculateTwistVelocity (yawQ (-(179 / 180) * π)) (some (yawQ ((179 / 180) * π)))
        (1 / 300) = 600 ∧
      (600:ℝ) < 358 * 300) := by
  have hpi : (0:ℝ) < π := Real.pi_pos
  refine ⟨rfl, ?_, ?_, ?_, by norm_num⟩
  · intro h
    cases prevRot with
    | none => rfl
    | some prev => simp [calculateTwistVelocity, if_pos h]
  · rintro prev rfl hdt
    have hcur := quaternionToEuler_z_mem currentRot
    have hprev := quaternionToEuler_z_mem prev
    have hδ₁ : -(2 * π) < (quaternionToEuler currentRot).z - (quaternionToEuler prev).z := by
      linarith [hcur.1, hprev.2]
    have hδ₂ : (quaternionToEuler currentRot).z - (quaternionToEuler prev).z < 2 * π := by
      linarith [hcur.2, hprev.1]
    have hw := wrapAngle_spec hδ₁ hδ₂
    refine ⟨?_, hw.1.1, hw.1.2⟩
    simp [calculateTwistVelocity, not_le.mpr hdt]
  · -- the ±179° boundary crossing
    have hth : (179 / 180 : ℝ) * π ≤ π := by nlinarith
    have hth' : -π < (179 / 180 : ℝ) * π := by nlinarith
    have hthm : -π < -(179 / 180 : ℝ) * π := by nlinarith
    have hthm' : -(179 / 180 : ℝ) * π ≤ π := by nlinarith
    have hy1 : (quaternionToEuler (yawQ (-(179 / 180) * π))).z = -(179 / 180) * π :=
      quaternionToEuler_yawQ_z hthm hthm'
    have hy2 : (quaternionToEuler (yawQ ((179 / 180) * π))).z = (179 / 180) * π :=
      quaternionToEuler_yawQ_z hth' hth
    have hraw : (quaternionToEuler (yawQ (-(179 / 180) * π))).z -
        (quaternionToEuler (yawQ ((179 / 180) * π))).z = -(358 / 180) * π := by
      rw [hy1, hy2]; ring
    have hwrap : wrapAngle (-(358 / 180) * π) = π / 90 := by
      have h1 : ¬ (π < -(358 / 180 : ℝ) * π) := by push_neg; nlinarith
      have h2 : (-(358 / 180 : ℝ) * π) < -π := by nlinarith
      simp only [wrapAngle, if_neg h1]
      rw [if_pos h2]
      ring
    have : calculateTwistVelocity (yawQ (-(179 / 180) * π))
        (some (yawQ ((179 / 180) * π))) (1 / 300) =
        (wrapAngle (-(358 / 180) * π) / (1 / 300)) * (180 / π) := by
      simp only [calculateTwistVelocity, if_neg (by norm_num : ¬ (1 / 300 : ℝ) ≤ 0)]
      rw [hraw]
    rw [this, hwrap]
    field_simp
    ring

/-- Witness for C2: concrete evaluations through `c2_twist_velocity_spec`. -/
theorem c2_twist_velocity_spec_witness :
    calculateTwistVelocity (yawQ 0) (some (yawQ 0)) (-1) = 0 ∧
    calculateTwistVelocity (yawQ (-(179 / 180) * π)) (some (yawQ ((179 / 180) * π)))
      (1 / 300) = 600 :=
  ⟨(c2_twist_velocity_spec (yawQ 0) (some (yawQ 0)) (-1)).2.1 (by norm_num),
   ((c2_twist_velocity_spec (yawQ 0) none 0).2.2.2).1⟩

/-! ## The tabular layer: JS `Number`, tokenization, line filtering

File contents and cells are modelled as `List Char` (structural-recursive
analogues of the JS string methods used by the source, so that concrete
inputs evaluate inside the kernel).  A Lean string literal enters the model
through `String.toList`. -/

/-- JS whitespace (the characters occurring in these inputs). -/
def jsWhitespace (c : Char) : Bool :=
  c == ' ' || c == '\t' || c == '\n' || c == '\r'

/-- `String.prototype.trim()`. -/
def trimChars (l : List Char) : List Char :=
  ((l.dropWhile jsWhitespace).reverse.dropWhile jsWhitespace).reverse

/-- `str.split(sep)` for a one-character separator; `''.split` yields `[""]`. -/
def splitOnChar (sep : Char) : List Char → List (List Char)
  | [] => [[]]
  | c :: rest =>
    if c == sep then [] :: splitOnChar sep rest
    else
      match splitOnChar sep rest with
      | [] => [[c]]
      | h :: t => (c :: h) :: t

/-- Splitting at every character satisfying `p` (empty pieces kept). -/
def splitByPred (p : Char → Bool) : List Char → List (List Char)
  | [] => [[]]
  | c :: rest =>
    if p c then [] :: splitByPred p rest
    else
      match splitByPred p rest with
      | [] => [[c]]
      | h :: t => (c :: h) :: t

/-- `line.startsWith('Frame')`. -/
def startsWithFrame : List Char → Bool
  | 'F' :: 'r' :: 'a' :: 'm' :: 'e' :: _ => true
  | _ => false

/-- Decimal digit run to a natural number. -/
def digitsVal (l : List Char) : ℕ :=
  l.foldl (fun a c => 10 * a + (c.toNat - Char.toNat '0')) 0

/-- Modelled from the JS runtime: `Number(str)` on plain decimal literals
(optional sign, digits, optional single decimal point), `none` standing for
`NaN`.  The empty string converts to `0` as in JS.  Exponent/hex forms never
occur in the inputs considered here and map to `none`. -/
def jsNumQ (s : List Char) : Option ℚ :=
  let t := trimChars s
  if t.isEmpty then some 0
  else
    let sgn : ℚ := if t.head? = some '-' then -1 else 1
    let ds := if t.head? = some '-' ∨ t.head? = some '+' then t.tail else t
    let ip := ds.takeWhile (fun c => c ≠ '.')
    let rest := ds.dropWhile (fun c => c ≠ '.')
    match rest with
    | [] =>
      if ip ≠ [] ∧ ip.all Char.isDigit then some (sgn * (digitsVal ip : ℚ)) else none
    | _ :: fp =>
      if (ip ≠ [] ∨ fp ≠ []) ∧ ip.all Char.isDigit ∧ fp.all Char.isDigit then
        some (sgn * ((digitsVal ip : ℚ) + (digitsVal fp : ℚ) / (10 : ℚ) ^ fp.length))
      else none

/-- JS `Number(...)` as a real; `none` models `NaN`. -/
def jsNumber (s : List Char) : Option ℝ := (jsNumQ s).map (fun q => (q : ℝ))

/-- The `v || 0` idiom: `NaN`, `undefined` and `0` all collapse to `0`. -/
def orZero (v : Option ℝ) : ℝ := v.getD 0

/-- The `v || 1` idiom used for the quaternion `w` component: `NaN`,
`undefined` and `0` all collapse to `1`. -/
def orOne (v : Option ℝ) : ℝ :=
  match v with
  | none => 1
  | some t => if t = 0 then 1 else t

/-- `line.trim().split(/\s+/)`: the maximal non-whitespace runs of the line. -/
def tokenize (line : List Char) : List (List Char) :=
  (splitByPred jsWhitespace (trimChars line)).filter (fun t => !t.isEmpty)

/-- `line.trim().split(/\s+/).map(Number)`. -/
def lineValues (line : List Char) : List (Option ℝ) := (tokenize line).map jsNumber

/-- The shared data-row filter (dataParser.ts:184-188, 229-232, 293-296):
`fileContent.trim().split('\n')` keeping only lines that are non-blank and do
not start with `"Frame"`. -/
def dataLines (fileContent : List Char) : List (List Char) :=
  (splitOnChar '\n' (trimChars fileContent)).filter
    (fun line => !(trimChars line).isEmpty && !startsWithFrame line)

/-! ## Joint-center extraction -/

/-- The per-joint scale normalization of `parseJointCenters`
(dataParser.ts:204-210): if the maximum coordinate magnitude exceeds `10`,
the source units are assumed to be millimeters and all three coordinates are
divided by `1000`; otherwise they are left unchanged. -/
def scaleJoint (x y z : ℝ) : ℝ × ℝ × ℝ :=
  let maxCoord := max (max |x| |y|) |z|
  if 10 < maxCoord then (x / 1000, y / 1000, z / 1000) else (x, y, z)

/-- Modelled from the spec (§4.3 of the specification): the scale
normalization as the claim states it — millimeter (`>1000`, scale `0.001`),
centimeter (`>10`, scale `0.01`) and kilometer (`<0.001` nonzero, scale
`1000`) branches.  Used only to compare the claim against `scaleJoint`. -/
def scaleJointSpec (x y z : ℝ) : ℝ × ℝ × ℝ :=
  let maxCoord := max (max |x| |y|) |z|
  if 1000 < maxCoord then (x * 0.001, y * 0.001, z * 0.001)
  else if 10 < maxCoord then (x * 0.01, y * 0.01, z * 0.01)
  else if maxCoord < 0.001 ∧ maxCoord ≠ 0 then (x * 1000, y * 1000, z * 1000)
  else (x, y, z)

/-- Scale normalization followed by the fixed axis permutation
(dataParser.ts:212-220: file `z` becomes vertical `y`, file `y` becomes
forward `z`). -/
def jointCenterOf (x y z : ℝ) : JointCenter :=
  let s := scaleJoint x y z
  ⟨s.1, s.2.2, s.2.1⟩

/-- One data row of the joint-centers file (dataParser.ts:190-222): usable
only with at least `17 × 12` values; joint `i` reads the first three values
of its 12-wide block. -/
def parseCenterRow (values : List (Option ℝ)) : Option (List (String × JointCenter)) :=
  if JOINT_NAMES.length * 12 ≤ values.length then
    some (JOINT_NAMES.enum.map (fun p =>
      let startIndex := p.1 * 12
      (p.2, jointCenterOf (orZero (values.getD startIndex none))
        (orZero (values.getD (startIndex + 1) none))
        (orZero (values.getD (startIndex + 2) none)))))
  else none

/-- `DataParser.parseJointCenters` (dataParser.ts:183-226), keyed by the
row's index among the data lines. -/
def parseJointCenters (fileContent : List Char) :
    List (ℕ × List (String × JointCenter)) :=
  (dataLines fileContent).enum.filterMap
    (fun p => (parseCenterRow (lineValues p.2)).map (fun m => (p.1, m)))

/-! ## Joint-rotation extraction -/

/-- The quaternion validation of `parseJointRotations`
(dataParser.ts:250-261): magnitude below `0.001` is replaced by the identity;
anything else is renormalized by the magnitude. -/
def validateQuat (x y z w : ℝ) : JointRotation :=
  let magnitude := Real.sqrt (x * x + y * y + z * z + w * w)
  if magnitude < 0.001 then ⟨0, 0, 0, 1⟩
  else ⟨x / magnitude, y / magnitude, z / magnitude, w / magnitude⟩

/-- Modelled from the spec (§4.4 of the specification): the quaternion
validation as the claim states it — identity below magnitude `0.1`,
renormalization only when `|magnitude − 1| > 0.1`, otherwise stored
unchanged.  Used only to compare the claim against `validateQuat`. -/
def validateQuatSpec (x y z w : ℝ) : JointRotation :=
  let magnitude := Real.sqrt (x * x + y * y + z * z + w * w)
  if magnitude < 0.1 then ⟨0, 0, 0, 1⟩
  else if 0.1 < |magnitude - 1| then ⟨x / magnitude, y / magnitude, z / magnitude, w / magnitude⟩
  else ⟨x, y, z, w⟩

/-- One data row of the joint-rotations file (dataParser.ts:235-263): usable
only with at least `17 × 4` values; joint `i` reads four values at stride 4,
the `w` component defaulting to `1` via `|| 1`. -/
def parseRotationRow (values : List (Option ℝ)) :
    Option (List (String × JointRotation)) :=
  if JOINT_NAMES.length * 4 ≤ values.length then
    some (JOINT_NAMES.enum.map (fun p =>
      let startIndex := p.1 * 4
      (p.2, validateQuat (orZero (values.getD startIndex none))
        (orZero (values.getD (startIndex + 1) none))
        (orZero (values.getD (startIndex + 2) none))
        (orOne (values.getD (startIndex + 3) none)))))
  else none

/-- `DataParser.parseJointRotations` (dataParser.ts:228-290). -/
def parseJointRotations (fileContent : List Char) :
    List (ℕ × List (String × JointRotation)) :=
  (dataLines fileContent).enum.filterMap
    (fun p => (parseRotationRow (lineValues p.2)).map (fun m => (p.1, m)))

/-- `DataParser.parseBaseballMetrics` (dataParser.ts:292-316). -/
def parseBaseballMetrics (fileContent : List Char) : List (ℕ × BaseballMetric) :=
  (dataLines fileContent).enum.filterMap (fun p =>
    let values := lineValues p.2
    if 4 ≤ values.length then
      some (p.1,
        { pelvisVelocity := orZero (values.getD 0 none),
          trunkVelocity := orZero (values.getD 1 none),
          elbowTorque := orZero (values.getD 2 none),
          shoulderTorque := orZero (values.getD 3 none),
          pelvisTwistVelocity := 0, shoulderTwistVelocity := 0,
          shoulderExternalRotation := 0, trunkSeparation := 0,
          timestamp := (p.1 : ℝ) / 300 })
    else none)

/-! ## Biomechanics derivation -/

open Classical

/-- A joint orientation "deviates from identity" for the pre-check of
`calculateBiomechanics` (dataParser.ts:335-336, epsilon `0.01`). -/
def quatDeviates (q : JointRotation) : Prop :=
  0.01 < |q.x| ∨ 0.01 < |q.y| ∨ 0.01 < |q.z| ∨ 0.01 < |q.w - 1|

/-- One frame of the pre-check: only the `Pelvis` and `R_Shoulder`
orientations are inspected (dataParser.ts:332-336). -/
def precheckFrame (rots : Option (List (String × JointRotation))) : Prop :=
  match rots with
  | none => False
  | some m =>
    (∃ q, m.lookup "Pelvis" = some q ∧ quatDeviates q) ∨
    (∃ q, m.lookup "R_Shoulder" = some q ∧ quatDeviates q)

/-- dataParser.ts:327-340: the identity pre-check over the first
`min(10, frameCount)` frames. -/
def hasValidRotationData (jointRotations : List (ℕ × List (String × JointRotation)))
    (frameNumbers : List ℕ) : Prop :=
  ∃ fn ∈ frameNumbers.take 10, precheckFrame (jointRotations.lookup fn)

/-- Modelled from the spec: the pre-check as claim C1 states it — every joint
orientation of the prefix frames is inspected, not only `Pelvis` and
`R_Shoulder`.  Used only to compare the claim against the source pre-check. -/
def hasValidRotationDataSpec (jointRotations : List (ℕ × List (String × JointRotation)))
    (frameNumbers : List ℕ) : Prop :=
  ∃ fn ∈ frameNumbers.take 10, ∃ m, jointRotations.lookup fn = some m ∧
    ∃ p ∈ m, quatDeviates (Prod.snd p)

/-- `Object.keys(map).map(Number).sort((a, b) => a - b)`: the keys of a frame
map in ascending order. -/
def frameNumbersOf {α : Type} (m : List (ℕ × α)) : List ℕ :=
  List.insertionSort (fun a b => a ≤ b) (m.map Prod.fst)

/-- The inlined backward-difference twist velocity of `calculateBiomechanics`
(dataParser.ts:364-386), zero when either sample is missing
(`deltaTime = 1/300`). -/
def backwardTwistVel (cur prev : Option JointRotation) : ℝ :=
  match cur, prev with
  | some c, some p =>
    (wrapAngle ((quaternionToEuler c).z - (quaternionToEuler p).z) / (1 / 300 : ℝ))
      * (180 / π)
  | _, _ => 0

/-- The shoulder external-rotation angle of `calculateBiomechanics`
(dataParser.ts:388-393). -/
def shoulderExtRotOf (rot : Option JointRotation) : ℝ :=
  match rot with
  | some q =>
    let e := |(quaternionToEuler q).x * (180 / π)|
    if 180 < e then 360 - e else e
  | none => 0

/-- The trunk-separation angle of `calculateBiomechanics`
(dataParser.ts:395-405). -/
def trunkSepOf (pelvis shoulder : Option JointRotation) : ℝ :=
  match pelvis, shoulder with
  | some p, some s =>
    |wrapAngle ((quaternionToEuler s).z - (quaternionToEuler p).z) * (180 / π)|
  | _, _ => 0

/-- The per-frame metric record of `calculateBiomechanics`
(dataParser.ts:354-417). -/
def computeFrameMetric (currentRotations : List (String × JointRotation))
    (prevRotations : Option (List (String × JointRotation)))
    (frameNumber : ℕ) : BaseballMetric :=
  let pelvisTwistVel := backwardTwistVel (currentRotations.lookup "Pelvis")
    (prevRotations.bind (fun m => m.lookup "Pelvis"))
  let shoulderTwistVel := backwardTwistVel (currentRotations.lookup "R_Shoulder")
    (prevRotations.bind (fun m => m.lookup "R_Shoulder"))
  let shoulderExtRot := shoulderExtRotOf (currentRotations.lookup "R_Shoulder")
  let trunkSep := trunkSepOf (currentRotations.lookup "Pelvis")
    (currentRotations.lookup "R_Shoulder")
  { pelvisVelocity := |pelvisTwistVel|,
    trunkVelocity := |shoulderTwistVel|,
    elbowTorque := shoulderExtRot,
    shoulderTorque := trunkSep,
    pelvisTwistVelocity := pelvisTwistVel,
    shoulderTwistVelocity := shoulderTwistVel,
    shoulderExternalRotation := shoulderExtRot,
    trunkSeparation := trunkSep,
    timestamp := (frameNumber : ℝ) / 300 }

/-- The per-frame loop of `calculateBiomechanics` (dataParser.ts:350-419):
each frame is paired with its immediate predecessor in the sorted order. -/
def computeMetrics (jointRotations : List (ℕ × List (String × JointRotation)))
    (frameNumbers : List ℕ) : List (ℕ × BaseballMetric) :=
  (frameNumbers.zip (none :: frameNumbers.map some)).filterMap (fun p =>
    match jointRotations.lookup p.1 with
    | some currentRotations =>
      some (p.1, computeFrameMetric currentRotations
        (p.2.bind (fun pf => jointRotations.lookup pf)) p.1)
    | none => none)

/-- The post-computation validity test (dataParser.ts:422-429): at least one
metric above its per-metric threshold. -/
def metricAboveThreshold (m : BaseballMetric) : Prop :=
  1 < |m.pelvisTwistVelocity| ∨ 1 < |m.shoulderTwistVelocity| ∨
  2 < m.shoulderExternalRotation ∨ 2 < m.trunkSeparation

/-- `validFrames.length` (dataParser.ts:422-430). -/
def validFrameCount (frameNumbers : List ℕ)
    (result : List (ℕ × BaseballMetric)) : ℕ :=
  (frameNumbers.filter (fun fn =>
    decide (∃ m, result.lookup fn = some m ∧ metricAboveThreshold m))).length

/-- One frame of `generateFallbackBiomechanics` (dataParser.ts:448-509): the
phase-piecewise curve over normalized time plus bounded jitter from the
`Math.random()` stream `rand` (four draws per frame, in call order). -/
def fallbackMetric (index total frameNumber : ℕ) (rand : ℕ → ℝ) : BaseballMetric :=
  let t : ℝ := (index : ℝ) / max ((total : ℝ) - 1) 1
  let base : ℝ × ℝ × ℝ × ℝ :=
    if t < 0.25 then
      (20 + t * 80 + Real.sin (t * π * 6) * 12,
       15 + t * 60 + Real.cos (t * π * 5) * 10,
       25 + t * 45,
       10 + t * 25)
    else if t < 0.55 then
      let stridePhase := (t - 0.25) / 0.3
      (100 + stridePhase * 150 + Real.sin (stridePhase * π * 4) * 25,
       75 + stridePhase * 180 + Real.cos (stridePhase * π * 3) * 30,
       70 + stridePhase * 50,
       35 + stridePhase * 40)
    else if t < 0.72 then
      let accelPhase := (t - 0.55) / 0.17
      (250 + accelPhase * 200 + Real.sin (accelPhase * π * 2) * 40,
       255 + accelPhase * 250 + Real.cos (accelPhase * π * 2.5) * 50,
       120 + accelPhase * 60,
       75 + accelPhase * 45)
    else if t < 0.8 then
      let releasePhase := (t - 0.72) / 0.08
      (450 + Real.sin (releasePhase * π * 3) * 80,
       505 + Real.cos (releasePhase * π * 4) * 100,
       180 + Real.sin (releasePhase * π) * 40,
       120 + Real.cos (releasePhase * π) * 30)
    else
      let followPhase := (t - 0.8) / 0.2
      (530 * (1 - followPhase * 0.9) + Real.sin (followPhase * π * 8) * 30,
       605 * (1 - followPhase * 0.85) + Real.cos (followPhase * π * 10) * 40,
       220 * (1 - followPhase * 0.6),
       150 * (1 - followPhase * 0.7))
  let pelvisTwistVel := base.1 + (rand (4 * index) - 0.5) * 20
  let shoulderTwistVel := base.2.1 + (rand (4 * index + 1) - 0.5) * 25
  let shoulderExtRot := max 5 (base.2.2.1 + (rand (4 * index + 2) - 0.5) * 10)
  let trunkSep := max 2 (base.2.2.2 + (rand (4 * index + 3) - 0.5) * 8)
  { pelvisVelocity := |pelvisTwistVel|,
    trunkVelocity := |shoulderTwistVel|,
    elbowTorque := |shoulderExtRot|,
    shoulderTorque := trunkSep,
    pelvisTwistVelocity := pelvisTwistVel,
    shoulderTwistVelocity := shoulderTwistVel,
    shoulderExternalRotation := shoulderExtRot,
    trunkSeparation := trunkSep,
    timestamp := (frameNumber : ℝ) / 300 }

/-- `DataParser.generateFallbackBiomechanics` (dataParser.ts:443-513). -/
def generateFallbackBiomechanics (frameNumbers : List ℕ) (rand : ℕ → ℝ) :
    List (ℕ × BaseballMetric) :=
  frameNumbers.enum.map (fun p => (p.2, fallbackMetric p.1 frameNumbers.length p.2 rand))

/-- `DataParser.calculateBiomechanics` (dataParser.ts:318-441): identity
pre-check, per-frame computation, then the `< 10%` valid-fraction gate. -/
def calculateBiomechanics (jointRotations : List (ℕ × List (String × JointRotation)))
    (rand : ℕ → ℝ) : List (ℕ × BaseballMetric) :=
  let frameNumbers := frameNumbersOf jointRotations
  if hasValidRotationData jointRotations frameNumbers then
    let result := computeMetrics jointRotations frameNumbers
    if (validFrameCount frameNumbers result : ℝ) < (frameNumbers.length : ℝ) * 0.1 then
      generateFallbackBiomechanics frameNumbers rand
    else result
  else generateFallbackBiomechanics frameNumbers rand

/-! ## Frame combination -/

/-- The all-zero default metrics record of `combineData`
(dataParser.ts:531-541). -/
def zeroMetric (frameNumber : ℕ) : BaseballMetric :=
  ⟨0, 0, 0, 0, 0, 0, 0, 0, (frameNumber : ℝ) / 300⟩

/-- One combined frame (dataParser.ts:527-542). -/
structure FrameData where
  frameNumber : ℕ
  jointCenters : List (String × JointCenter)
  jointRotations : List (String × JointRotation)
  baseballMetrics : BaseballMetric

/-- The combined dataset (dataParser.ts:545-550). -/
structure MotionData where
  frames : List FrameData
  frameRate : ℝ
  duration : ℝ
  jointNames : List String

/-- `DataParser.combineData` (dataParser.ts:515-551). -/
def combineData (jointCenters : List (ℕ × List (String × JointCenter)))
    (jointRotations : List (ℕ × List (String × JointRotation)))
    (baseballMetrics : Option (List (ℕ × BaseballMetric)))
    (rand : ℕ → ℝ) : MotionData :=
  let frameNumbers := frameNumbersOf jointCenters
  let calculatedMetrics := baseballMetrics.getD (calculateBiomechanics jointRotations rand)
  let frames := frameNumbers.map (fun frameNumber =>
    { frameNumber := frameNumber,
      jointCenters := (jointCenters.lookup frameNumber).getD [],
      jointRotations := (jointRotations.lookup frameNumber).getD [],
      baseballMetrics := (calculatedMetrics.lookup frameNumber).getD (zeroMetric frameNumber)
      : FrameData })
  { frames := frames, frameRate := 300,
    duration := (frames.length : ℝ) / 300, jointNames := JOINT_NAMES }

/-! ## Claims about the extractors (C3, C4, C5) -/

theorem maxAbs_x {x : ℝ} (hx : 0 ≤ x) : max (max |x| |(0:ℝ)|) |(0:ℝ)| = x := by
  rw [abs_of_nonneg hx, abs_zero, max_eq_left hx, max_eq_left hx]

/-- C4 counterexample: the claimed three-branch mm/cm/km scale normalization
does not match the code.  At maximum magnitude `10.001` the code divides by
`1000` (its single millimeter branch, `0.010001`), while the claim predicts
the centimeter factor `0.01` (`0.10001`). -/
theorem c4_scale_normalization_cex :
    ¬ (∀ x y z : ℝ, scaleJoint x y z = scaleJointSpec x y z) := by
  intro h
  have h1 := h 10.001 0 0
  have hm : max (max |(10.001:ℝ)| |(0:ℝ)|) |(0:ℝ)| = 10.001 := maxAbs_x (by norm_num)
  have hcode : scaleJoint 10.001 0 0 = ((10.001:ℝ) / 1000, (0:ℝ), (0:ℝ)) := by
    simp only [scaleJoint, hm]
    rw [if_pos (by norm_num : (10:ℝ) < 10.001)]
    norm_num
  have hspec : scaleJointSpec 10.001 0 0 = ((10.001:ℝ) * 0.01, (0:ℝ), (0:ℝ)) := by
    simp only [scaleJointSpec, hm]
    rw [if_neg (by norm_num : ¬ (1000:ℝ) < 10.001),
      if_pos (by norm_num : (10:ℝ) < 10.001)]
    norm_num
  rw [hcode, hspec] at h1
  have h2 := congrArg Prod.fst h1
  norm_num at h2

/-- C4 (amended): with `M = max(|x|,|y|,|z|)`, the code has a single branch —
`M > 10` divides all three coordinates by `1000` (millimeters), anything else
is left unscaled; so magnitude exactly `10` is unscaled and both `10.001`
and `1000.001` are scaled by `0.001`. -/
theorem c4_scale_normalization_amended (x y z : ℝ) :
    (10 < max (max |x| |y|) |z| → scaleJoint x y z = (x / 1000, y / 1000, z / 1000)) ∧
    (max (max |x| |y|) |z| ≤ 10 → scaleJoint x y z = (x, y, z)) ∧
    scaleJoint 10 0 0 = ((10:ℝ), 0, 0) ∧
    scaleJoint 10.001 0 0 = ((10.001:ℝ) / 1000, 0, 0) ∧
    scaleJoint 1000.001 0 0 = ((1000.001:ℝ) / 1000, 0, 0) := by
  refine ⟨?_, ?_, ?_, ?_, ?_⟩
  · intro h
    simp only [scaleJoint]
    rw [if_pos h]
  · intro h
    simp only [scaleJoint]
    rw [if_neg (not_lt.mpr h)]
  · simp only [scaleJoint, maxAbs_x (by norm_num : (0:ℝ) ≤ 10)]
    rw [if_neg (by norm_num)]
  · simp only [scaleJoint, maxAbs_x (by norm_num : (0:ℝ) ≤ 10.001)]
    rw [if_pos (by norm_num)]
    norm_num
  · simp only [scaleJoint, maxAbs_x (by norm_num : (0:ℝ) ≤ 1000.001)]
    rw [if_pos (by norm_num)]
    norm_num

/-- Witness for the amended C4 at concrete inputs on both branches. -/
theorem c4_scale_normalization_amended_witness :
    scaleJoint 20 0 0 = ((20:ℝ) / 1000, 0 / 1000, 0 / 1000) ∧ scaleJoint 1 0 0 = ((1:ℝ), 0, 0) :=
  ⟨(c4_scale_normalization_amended 20 0 0).1
      (by rw [maxAbs_x (by norm_num : (0:ℝ) ≤ 20)]; norm_num),
   (c4_scale_normalization_amended 1 0 0).2.1
      (by rw [maxAbs_x (by norm_num : (0:ℝ) ≤ 1)]; norm_num)⟩

/-- C5 counterexample: the claimed three-branch quaternion validation does
not match the code.  A raw quaternion `(0,0,0,0.95)` has magnitude `0.95`
within the claim's `|m-1| ≤ 0.1` tolerance, so the claim stores it
unchanged, but the code renormalizes it to the exact identity. -/
theorem c5_quat_validation_cex :
    ¬ (∀ x y z w : ℝ, validateQuat x y z w = validateQuatSpec x y z w) := by
  intro h
  have h1 := h 0 0 0 0.95
  have hm : Real.sqrt ((0:ℝ) * 0 + 0 * 0 + 0 * 0 + 0.95 * 0.95) = 0.95 := by
    rw [show ((0:ℝ) * 0 + 0 * 0 + 0 * 0 + 0.95 * 0.95) = (0.95:ℝ) ^ 2 by norm_num,
      Real.sqrt_sq (by norm_num)]
  have hcode : validateQuat 0 0 0 0.95 = ⟨0, 0, 0, 1⟩ := by
    simp only [validateQuat, hm]
    rw [if_neg (by norm_num)]
    norm_num [JointRotation.mk.injEq]
  have hspec : validateQuatSpec 0 0 0 0.95 = ⟨0, 0, 0, 0.95⟩ := by
    simp only [validateQuatSpec, hm]
    rw [if_neg (by norm_num),
      if_neg (by rw [show |(0.95:ℝ) - 1| = 0.05 by rw [abs_of_neg (by norm_num)]; norm_num]; norm_num)]
  rw [hcode, hspec] at h1
  have h2 := congrArg JointRotation.w h1
  norm_num at h2

/-- C5 (amended): the stored quaternion is the identity exactly when the raw
magnitude is below `0.001`; every other raw quaternion is renormalized by
its magnitude (it is never stored unchanged). -/
theorem c5_quat_validation_amended (x y z w : ℝ) :
    (Real.sqrt (x * x + y * y + z * z + w * w) < 0.001 →
      validateQuat x y z w = ⟨0, 0, 0, 1⟩) ∧
    (0.001 ≤ Real.sqrt (x * x + y * y + z * z + w * w) →
      validateQuat x y z w =
        ⟨x / Real.sqrt (x * x + y * y + z * z + w * w),
         y / Real.sqrt (x * x + y * y + z * z + w * w),
         z / Real.sqrt (x * x + y * y + z * z + w * w),
         w / Real.sqrt (x * x + y * y + z * z + w * w)⟩) := by
  constructor
  · intro h
    simp only [validateQuat]
    rw [if_pos h]
  · intro h
    simp only [validateQuat]
    rw [if_neg (not_lt.mpr h)]

/-- Witness for the amended C5: the `(0,0,0,0.95)` quaternion is
renormalized to the identity. -/
theorem c5_quat_validation_amended_witness :
    validateQuat 0 0 0 0.95 = ⟨0, 0, 0, 1⟩ := by
  have hm : Real.sqrt ((0:ℝ) * 0 + 0 * 0 + 0 * 0 + 0.95 * 0.95) = 0.95 := by
    rw [show ((0:ℝ) * 0 + 0 * 0 + 0 * 0 + 0.95 * 0.95) = (0.95:ℝ) ^ 2 by norm_num,
      Real.sqrt_sq (by norm_num)]
  have h := (c5_quat_validation_amended 0 0 0 0.95).2 (by rw [hm]; norm_num)
  rw [hm] at h
  rw [h]
  norm_num [JointRotation.mk.injEq]

/-- C3 counterexample: the claimed flexible partitioning (usable at `N×3`
values, block width `⌊count/N⌋`) does not match the code, which requires
`N×12` values.  A row of exactly `17 × 3 = 51` numeric values is dropped by
the code, while the claim says it parses into 17 positions. -/
theorem c3_partition_cex :
    ¬ ((∀ values : List (Option ℝ),
          (parseCenterRow values).isSome ↔ JOINT_NAMES.length * 3 ≤ values.length) ∧
       (∀ values : List (Option ℝ), values.length = JOINT_NAMES.length * 3 →
          ∃ m, parseCenterRow values = some m ∧ m.length = JOINT_NAMES.length)) := by
  intro h
  obtain ⟨m, hm, -⟩ := h.2 (List.replicate 51 (some 1)) (by decide)
  have hnone : parseCenterRow (List.replicate (51:ℕ) (some (1:ℝ))) = none := by
    simp only [parseCenterRow]
    rw [if_neg (by decide)]
  rw [hnone] at hm
  exact Option.noConfusion hm

/-- C3 (amended): a joint-centers row is usable exactly when it yields at
least `17 × 12` values; a usable row is partitioned at fixed stride `12`,
each joint reading the first three values of its block, yielding exactly 17
positions; a row of exactly `17 × 3` values is dropped. -/
theorem c3_partition_amended (values : List (Option ℝ)) :
    ((parseCenterRow values).isSome ↔ JOINT_NAMES.length * 12 ≤ values.length) ∧
    (∀ m, parseCenterRow values = some m → m.length = JOINT_NAMES.length) ∧
    (values.length = JOINT_NAMES.length * 3 → parseCenterRow values = none) ∧
    (JOINT_NAMES.length * 12 ≤ values.length →
      parseCenterRow values = some (JOINT_NAMES.enum.map (fun p =>
        (p.2, jointCenterOf (orZero (values.getD (p.1 * 12) none))
          (orZero (values.getD (p.1 * 12 + 1) none))
          (orZero (values.getD (p.1 * 12 + 2) none)))))) := by
  refine ⟨?_, ?_, ?_, ?_⟩
  · simp only [parseCenterRow]
    split_ifs with h
    · simpa using h
    · simpa using h
  · intro m hm
    simp only [parseCenterRow] at hm
    by_cases h : JOINT_NAMES.length * 12 ≤ values.length
    · rw [if_pos h, Option.some.injEq] at hm
      rw [← hm]
      simp
    · rw [if_neg h] at hm
      exact Option.noConfusion hm
  · intro h
    simp only [parseCenterRow]
    rw [if_neg (by rw [h]; decide)]
  · intro h
    simp only [parseCenterRow]
    rw [if_pos h]

set_option maxRecDepth 8000 in
/-- Witness for the amended C3: a 204-value row parses, a 51-value row is
dropped. -/
theorem c3_partition_amended_witness :
    (parseCenterRow (List.replicate 204 (some (1:ℝ)))).isSome ∧
    parseCenterRow (List.replicate 51 (some (1:ℝ))) = none :=
  ⟨(c3_partition_amended (List.replicate 204 (some (1:ℝ)))).1.mpr (by decide),
   (c3_partition_amended (List.replicate 51 (some (1:ℝ)))).2.2.1 (by decide)⟩

/-! ## Claims about the row filter and the empty-input path (C8, C7) -/

/-- Modelled from the spec (§4.2 of the specification): header detection as
claim C8 states it — the first row is excluded exactly when some of its
cells fails strict numeric-literal matching, and all remaining rows are data
rows.  Used only to compare the claim against `dataLines`. -/
def dataLinesSpec (fileContent : List Char) : List (List Char) :=
  match splitOnChar '\n' (trimChars fileContent) with
  | [] => []
  | first :: rest =>
    if (tokenize first).any (fun cell => (jsNumQ cell).isNone) then rest
    else first :: rest

/-- C8 counterexample: the code does not detect headers by numeric matching;
it drops every line starting with `"Frame"` (and blank lines) wherever they
occur.  On `"1 1\nFrame 2"` the first row is all-numeric, so the claim keeps
both rows, but the code drops the second. -/
theorem c8_header_detection_cex :
    ¬ (∀ fileContent : List Char, dataLines fileContent = dataLinesSpec fileContent) := by
  intro h
  have h1 := h ("1 1\nFrame 2".toList)
  have hc : dataLines ("1 1\nFrame 2".toList) = ["1 1".toList] := by decide
  have hs : dataLinesSpec ("1 1\nFrame 2".toList) =
      ["1 1".toList, "Frame 2".toList] := by decide
  rw [hc, hs] at h1
  exact absurd h1 (by decide)

/-- C8 (amended): a line is excluded exactly when it is blank after trimming
or starts with `"Frame"`; this applies to every line, not only the first,
and involves no numeric matching. -/
theorem c8_header_filter_amended (fileContent : List Char) :
    dataLines fileContent = (splitOnChar '\n' (trimChars fileContent)).filter
      (fun line => !(trimChars line).isEmpty && !startsWithFrame line) ∧
    (∀ line ∈ dataLines fileContent, startsWithFrame line = false) ∧
    (∀ line ∈ dataLines fileContent, (trimChars line).isEmpty = false) := by
  refine ⟨rfl, ?_, ?_⟩
  · intro line hline
    have := List.of_mem_filter hline
    simp only [Bool.and_eq_true, Bool.not_eq_true'] at this
    exact this.2
  · intro line hline
    have := List.of_mem_filter hline
    simp only [Bool.and_eq_true, Bool.not_eq_true'] at this
    exact this.1

/-- Witness for the amended C8: the surviving line of `"1 1\nFrame 2"` does
not start with `"Frame"`. -/
theorem c8_header_filter_amended_witness :
    startsWithFrame ("1 1".toList) = false :=
  (c8_header_filter_amended ("1 1\nFrame 2".toList)).2.1 ("1 1".toList) (by decide)

/-- C7: empty content (and content with no usable row) parses to an empty
frame map, and combining an empty joint-centers map gives a dataset with no
frames, duration `0` and frame rate `300`.  (Every function of the embedding
is total: no input makes the pipeline throw.) -/
theorem c7_empty_and_unusable_input (fileContent : List Char)
    (jointRotations : List (ℕ × List (String × JointRotation)))
    (baseballMetrics : Option (List (ℕ × BaseballMetric))) (rand : ℕ → ℝ) :
    parseJointCenters ("".toList) = [] ∧
    ((∀ line ∈ dataLines fileContent,
        (lineValues line).length < JOINT_NAMES.length * 12) →
      parseJointCenters fileContent = []) ∧
    (combineData [] jointRotations baseballMetrics rand).frames = [] ∧
    (combineData [] jointRotations baseballMetrics rand).duration = 0 ∧
    (combineData [] jointRotations baseballMetrics rand).frameRate = 300 := by
  have hf : (combineData [] jointRotations baseballMetrics rand).frames = [] := rfl
  refine ⟨rfl, ?_, hf, ?_, rfl⟩
  · intro h
    unfold parseJointCenters
    rw [List.filterMap_eq_nil_iff]
    rw [List.forall_mem_enum]
    intro i hi
    have hrow := h ((dataLines fileContent)[i]) (List.getElem_mem hi)
    rw [Option.map_eq_none']
    simp only [parseCenterRow]
    rw [if_neg (not_le.mpr hrow)]
  · have h2 : (combineData [] jointRotations baseballMetrics rand).duration =
        (((combineData [] jointRotations baseballMetrics rand).frames.length : ℕ) : ℝ) / 300 := rfl
    rw [h2, hf]
    norm_num

/-- Witness for C7: a one-word file has no usable row and parses to the
empty map; the empty dataset has no frames. -/
theorem c7_empty_and_unusable_input_witness :
    parseJointCenters ("hello".toList) = [] ∧
    (combineData [] [] none (fun _ => 0)).frames = [] :=
  ⟨(c7_empty_and_unusable_input ("hello".toList) [] none (fun _ => 0)).2.1 (by decide),
   (c7_empty_and_unusable_input ("".toList) [] none (fun _ => 0)).2.2.1⟩

/-! ## C6: ordering and counting invariants of `combineData` -/

/-- C6: the combined dataset's frames are strictly ascending in
`frameNumber` for every iteration order of the input maps (any association
list), the frame count equals the number of (distinct) keys of the
joint-centers map, and the frame-number sequence is entirely independent of
the rotations and metrics maps.  The `Nodup` hypothesis expresses that a JS
object cannot hold duplicate keys. -/
theorem c6_combine_sorted_count
    (jointCenters : List (ℕ × List (String × JointCenter)))
    (jointRotations : List (ℕ × List (String × JointRotation)))
    (baseballMetrics : Option (List (ℕ × BaseballMetric))) (rand : ℕ → ℝ)
    (hnd : (jointCenters.map Prod.fst).Nodup) :
    List.Sorted (· < ·)
      ((combineData jointCenters jointRotations baseballMetrics rand).frames.map
        FrameData.frameNumber) ∧
    (combineData jointCenters jointRotations baseballMetrics rand).frames.length =
      (jointCenters.map Prod.fst).length ∧
    (∀ jointRotations' baseballMetrics' rand',
      (combineData jointCenters jointRotations' baseballMetrics' rand').frames.map
          FrameData.frameNumber =
        (combineData jointCenters jointRotations baseballMetrics rand).frames.map
          FrameData.frameNumber) := by
  have hframes : ∀ (jr : List (ℕ × List (String × JointRotation)))
      (bm : Option (List (ℕ × BaseballMetric))) (rd : ℕ → ℝ),
      (combineData jointCenters jr bm rd).frames.map FrameData.frameNumber =
        frameNumbersOf jointCenters := by
    intro jr bm rd
    show ((frameNumbersOf jointCenters).map _).map FrameData.frameNumber = _
    rw [List.map_map]
    exact List.map_id _
  refine ⟨?_, ?_, ?_⟩
  · rw [hframes]
    have hs : List.Sorted (fun a b => a ≤ b) (frameNumbersOf jointCenters) :=
      List.sorted_insertionSort _ _
    have hn : (frameNumbersOf jointCenters).Nodup :=
      (List.perm_insertionSort _ _).symm.nodup hnd
    exact hs.lt_of_le hn
  · have h1 : (combineData jointCenters jointRotations baseballMetrics rand).frames.length =
        ((combineData jointCenters jointRotations baseballMetrics rand).frames.map
          FrameData.frameNumber).length := (List.length_map _ _).symm
    rw [h1, hframes, frameNumbersOf, (List.perm_insertionSort _ _).length_eq]
  · intro jr' bm' rd'
    rw [hframes, hframes]

/-- Witness for C6: a three-frame map given in scrambled order comes out
strictly sorted with three frames. -/
theorem c6_combine_sorted_count_witness :
    List.Sorted (· < ·)
      ((combineData [(2, []), (0, []), (1, [])] [] none (fun _ => 0)).frames.map
        FrameData.frameNumber) ∧
    (combineData [(2, []), (0, []), (1, [])] [] none (fun _ => 0)).frames.length = 3 :=
  ⟨(c6_combine_sorted_count [(2, []), (0, []), (1, [])] [] none (fun _ => 0)
      (by decide)).1,
   (c6_combine_sorted_count [(2, []), (0, []), (1, [])] [] none (fun _ => 0)
      (by decide)).2.1⟩

/-! ## C10: the legacy metric fields are aliases -/

theorem quaternionToEuler_x_mem (q : JointRotation) :
    -π < (quaternionToEuler q).x ∧ (quaternionToEuler q).x ≤ π := by
  have hpi : (0:ℝ) < π := Real.pi_pos
  simp only [quaternionToEuler]
  split_ifs
  · exact ⟨by simpa using neg_lt_zero.mpr hpi, by simpa using le_of_lt hpi⟩
  · exact atan2_mem_Ioc _ _
  · exact atan2_mem_Ioc _ _

theorem shoulderExtRotOf_nonneg (rot : Option JointRotation) :
    0 ≤ shoulderExtRotOf rot := by
  cases rot with
  | none => exact le_refl 0
  | some q =>
    have hpi : (0:ℝ) < π := Real.pi_pos
    have hx := quaternionToEuler_x_mem q
    have habs : |(quaternionToEuler q).x| ≤ π := abs_le.mpr ⟨le_of_lt hx.1, hx.2⟩
    have hb : |(quaternionToEuler q).x * (180 / π)| ≤ 180 := by
      rw [abs_mul, abs_of_pos (by positivity : (0:ℝ) < 180 / π)]
      calc |(quaternionToEuler q).x| * (180 / π) ≤ π * (180 / π) := by
            apply mul_le_mul_of_nonneg_right habs
            positivity
        _ = 180 := by field_simp
    simp only [shoulderExtRotOf]
    split_ifs with h
    · linarith
    · exact abs_nonneg _

/-- C10: in every metrics record produced by `calculateBiomechanics` (both
its computed and fallback paths) and by `generateFallbackBiomechanics`, the
legacy fields are exact aliases of the angular metrics of the same record:
`pelvisVelocity = |pelvisTwistVelocity|`,
`trunkVelocity = |shoulderTwistVelocity|`,
`elbowTorque = |shoulderExternalRotation|` and
`shoulderTorque = trunkSeparation`. -/
theorem c10_legacy_aliases
    (jointRotations : List (ℕ × List (String × JointRotation)))
    (frameNumbers : List ℕ) (rand : ℕ → ℝ) :
    (∀ p ∈ calculateBiomechanics jointRotations rand,
      p.2.pelvisVelocity = |p.2.pelvisTwistVelocity| ∧
      p.2.trunkVelocity = |p.2.shoulderTwistVelocity| ∧
      p.2.elbowTorque = |p.2.shoulderExternalRotation| ∧
      p.2.shoulderTorque = p.2.trunkSeparation) ∧
    (∀ p ∈ generateFallbackBiomechanics frameNumbers rand,
      p.2.pelvisVelocity = |p.2.pelvisTwistVelocity| ∧
      p.2.trunkVelocity = |p.2.shoulderTwistVelocity| ∧
      p.2.elbowTorque = |p.2.shoulderExternalRotation| ∧
      p.2.shoulderTorque = p.2.trunkSeparation) := by
  have hfall : ∀ (frameNumbers' : List ℕ),
      ∀ p ∈ generateFallbackBiomechanics frameNumbers' rand,
      p.2.pelvisVelocity = |p.2.pelvisTwistVelocity| ∧
      p.2.trunkVelocity = |p.2.shoulderTwistVelocity| ∧
      p.2.elbowTorque = |p.2.shoulderExternalRotation| ∧
      p.2.shoulderTorque = p.2.trunkSeparation := by
    intro frameNumbers' p hp
    obtain ⟨a, -, rfl⟩ := List.mem_map.mp hp
    exact ⟨rfl, rfl, rfl, rfl⟩
  have hcomp : ∀ (cur : List (String × JointRotation))
      (prev : Option (List (String × JointRotation))) (fn : ℕ),
      (computeFrameMetric cur prev fn).pelvisVelocity =
        |(computeFrameMetric cur prev fn).pelvisTwistVelocity| ∧
      (computeFrameMetric cur prev fn).trunkVelocity =
        |(computeFrameMetric cur prev fn).shoulderTwistVelocity| ∧
      (computeFrameMetric cur prev fn).elbowTorque =
        |(computeFrameMetric cur prev fn).shoulderExternalRotation| ∧
      (computeFrameMetric cur prev fn).shoulderTorque =
        (computeFrameMetric cur prev fn).trunkSeparation := by
    intro cur prev fn
    refine ⟨rfl, rfl, ?_, rfl⟩
    exact (abs_of_nonneg (shoulderExtRotOf_nonneg _)).symm
  constructor
  · intro p hp
    simp only [calculateBiomechanics] at hp
    split_ifs at hp
    · -- pre-check passed, gate failed: fallback
      exact hfall _ p hp
    · -- computed result
      obtain ⟨a, -, ha⟩ := List.mem_filterMap.mp hp
      rcases hl : (jointRotations.lookup a.1) with - | cur
      · rw [hl] at ha
        exact Option.noConfusion ha
      · rw [hl] at ha
        obtain rfl := (Option.some.injEq _ _).mp ha
        exact hcomp _ _ _
    · exact hfall _ p hp
  · exact hfall frameNumbers

/-- Witness for C10: the aliases hold on a concrete fallback record. -/
theorem c10_legacy_aliases_witness :
    (fallbackMetric 0 1 0 (fun _ => 1 / 2)).pelvisVelocity
        = |(fallbackMetric 0 1 0 (fun _ => 1 / 2)).pelvisTwistVelocity| ∧
    (fallbackMetric 0 1 0 (fun _ => 1 / 2)).trunkVelocity
        = |(fallbackMetric 0 1 0 (fun _ => 1 / 2)).shoulderTwistVelocity| ∧
    (fallbackMetric 0 1 0 (fun _ => 1 / 2)).elbowTorque
        = |(fallbackMetric 0 1 0 (fun _ => 1 / 2)).shoulderExternalRotation| ∧
    (fallbackMetric 0 1 0 (fun _ => 1 / 2)).shoulderTorque
        = (fallbackMetric 0 1 0 (fun _ => 1 / 2)).trunkSeparation :=
  (c10_legacy_aliases [] [0] (fun _ => 1 / 2)).2
    (0, fallbackMetric 0 1 0 (fun _ => 1 / 2)) (List.mem_singleton.mpr rfl)

/-! ## C1: the two-stage quality gate of `calculateBiomechanics` -/

theorem lookup_mem {α β : Type} [BEq α] [LawfulBEq α] {k : α} {v : β} :
    ∀ {l : List (α × β)}, l.lookup k = some v → (k, v) ∈ l := by
  intro l
  induction l with
  | nil => intro h; exact Option.noConfusion h
  | cons hd tl ih =>
    obtain ⟨k', v'⟩ := hd
    intro h
    by_cases hk : k = k'
    · subst hk
      simp only [List.lookup, beq_self_eq_true] at h
      obtain rfl := (Option.some.injEq _ _).mp h
      exact List.mem_cons_self _ _
    · have hb : (k == k') = false := beq_false_of_ne hk
      simp only [List.lookup, hb] at h
      exact List.mem_cons_of_mem _ (ih h)

/-- The identity quaternion never trips the deviation test. -/
theorem not_quatDeviates_id : ¬ quatDeviates ⟨0, 0, 0, 1⟩ := by
  simp only [quatDeviates]
  push_neg
  norm_num

/-- Every fallback record has `shoulderExternalRotation ≥ 5` (the
`Math.max(5, ...)` clamp), so a fallback output is never all-zero. -/
theorem fallback_extRot_ge_five (frameNumbers : List ℕ) (rand : ℕ → ℝ) :
    ∀ p ∈ generateFallbackBiomechanics frameNumbers rand,
      5 ≤ p.2.shoulderExternalRotation := by
  intro p hp
  obtain ⟨a, -, rfl⟩ := List.mem_map.mp hp
  exact le_max_left 5 _

/-- C1 (amended): the pre-check of `calculateBiomechanics` inspects only the
`Pelvis` and `R_Shoulder` orientations of the first `min(10, frameCount)`
frames — not every joint: (a) if neither deviates from identity beyond the
`0.01` epsilon there, the synthetic fallback is returned immediately; (b)
otherwise metrics are computed for every frame and discarded for the
fallback exactly when fewer than 10% of frames have a metric above its
threshold; and for an all-identity input the output is the fallback
phase-piecewise curve, never all-zero (`shoulderExternalRotation ≥ 5`). -/
theorem c1_quality_gate_amended
    (jointRotations : List (ℕ × List (String × JointRotation))) (rand : ℕ → ℝ) :
    (¬ hasValidRotationData jointRotations (frameNumbersOf jointRotations) →
      calculateBiomechanics jointRotations rand =
        generateFallbackBiomechanics (frameNumbersOf jointRotations) rand) ∧
    (hasValidRotationData jointRotations (frameNumbersOf jointRotations) →
      (((validFrameCount (frameNumbersOf jointRotations)
            (computeMetrics jointRotations (frameNumbersOf jointRotations)) : ℝ) <
          ((frameNumbersOf jointRotations).length : ℝ) * 0.1 →
        calculateBiomechanics jointRotations rand =
          generateFallbackBiomechanics (frameNumbersOf jointRotations) rand) ∧
       (((frameNumbersOf jointRotations).length : ℝ) * 0.1 ≤
          (validFrameCount (frameNumbersOf jointRotations)
            (computeMetrics jointRotations (frameNumbersOf jointRotations)) : ℝ) →
        calculateBiomechanics jointRotations rand =
          computeMetrics jointRotations (frameNumbersOf jointRotations)))) ∧
    ((∀ pr ∈ jointRotations, ∀ jq ∈ pr.2, jq.2 = (⟨0, 0, 0, 1⟩ : JointRotation)) →
      calculateBiomechanics jointRotations rand =
        generateFallbackBiomechanics (frameNumbersOf jointRotations) rand ∧
      ∀ p ∈ calculateBiomechanics jointRotations rand,
        5 ≤ p.2.shoulderExternalRotation) := by
  have hid : (∀ pr ∈ jointRotations, ∀ jq ∈ pr.2, jq.2 = (⟨0, 0, 0, 1⟩ : JointRotation)) →
      ¬ hasValidRotationData jointRotations (frameNumbersOf jointRotations) := by
    intro hall hvalid
    obtain ⟨fn, -, hdev⟩ := hvalid
    cases hl : jointRotations.lookup fn with
    | none =>
      rw [hl] at hdev
      exact hdev
    | some m =>
      rw [hl] at hdev
      rcases hdev with ⟨q, hq, hd⟩ | ⟨q, hq, hd⟩
      · have hm : q = (⟨0, 0, 0, 1⟩ : JointRotation) :=
          hall (fn, m) (lookup_mem hl) _ (lookup_mem hq)
        rw [hm] at hd
        exact not_quatDeviates_id hd
      · have hm : q = (⟨0, 0, 0, 1⟩ : JointRotation) :=
          hall (fn, m) (lookup_mem hl) _ (lookup_mem hq)
        rw [hm] at hd
        exact not_quatDeviates_id hd
  refine ⟨?_, ?_, ?_⟩
  · intro h
    simp only [calculateBiomechanics]
    rw [if_neg h]
  · intro h
    constructor
    · intro hgate
      simp only [calculateBiomechanics]
      rw [if_pos h, if_pos hgate]
    · intro hgate
      simp only [calculateBiomechanics]
      rw [if_pos h, if_neg (not_lt.mpr hgate)]
  · intro hall
    have hfb : calculateBiomechanics jointRotations rand =
        generateFallbackBiomechanics (frameNumbersOf jointRotations) rand := by
      simp only [calculateBiomechanics]
      rw [if_neg (hid hall)]
    refine ⟨hfb, ?_⟩
    rw [hfb]
    exact fallback_extRot_ge_five _ _

/-- Witness for the amended C1: a one-frame all-identity input produces the
fallback record sequence, whose only record has
`shoulderExternalRotation ≥ 5`. -/
theorem c1_quality_gate_amended_witness :
    calculateBiomechanics [(0, JOINT_NAMES.map (fun n => (n, (⟨0, 0, 0, 1⟩ : JointRotation))))]
        (fun _ => 1 / 2) =
      generateFallbackBiomechanics
        (frameNumbersOf [(0, JOINT_NAMES.map (fun n => (n, (⟨0, 0, 0, 1⟩ : JointRotation))))])
        (fun _ => 1 / 2) ∧
    (5:ℝ) ≤ (fallbackMetric 0 1 0 (fun _ => 1 / 2)).shoulderExternalRotation := by
  have h := (c1_quality_gate_amended
    [(0, JOINT_NAMES.map (fun n => (n, (⟨0, 0, 0, 1⟩ : JointRotation))))] (fun _ => 1 / 2)).2.2
    (by
      intro pr hpr jq hjq
      rw [List.mem_singleton] at hpr
      subst hpr
      obtain ⟨n, -, rfl⟩ := List.mem_map.mp hjq
      rfl)
  refine ⟨h.1, ?_⟩
  refine h.2 (0, fallbackMetric 0 1 0 (fun _ => 1 / 2)) ?_
  rw [h.1]
  exact List.mem_singleton.mpr rfl

/-! ### C1 counterexample input

Ten frames in which the `Head` joint deviates strongly from identity while
`Pelvis` and `R_Shoulder` stay within the `0.01` pre-check epsilon of
identity — yet their small opposite yaws put the trunk separation above its
`2°` validity threshold in every frame. -/

/-- One frame of the C1 counterexample input. -/
def cexFrameMap : List (String × JointRotation) :=
  [("Head", ⟨1, 0, 0, 0⟩), ("Pelvis", yawQ (-(9 / 500))), ("R_Shoulder", yawQ (9 / 500))]

/-- The C1 counterexample input: ten copies of `cexFrameMap`. -/
def cexRotations : List (ℕ × List (String × JointRotation)) :=
  (List.range 10).map (fun i => (i, cexFrameMap))

theorem sin_small_nonneg : (0:ℝ) ≤ Real.sin (9 / 1000) :=
  Real.sin_nonneg_of_nonneg_of_le_pi (by norm_num)
    (by nlinarith [Real.pi_gt_d6])

theorem sin_small_le : Real.sin (9 / 1000 : ℝ) ≤ 0.01 :=
  le_of_lt ((Real.sin_lt (by norm_num)).trans_le (by norm_num))

theorem cos_small_near_one : |Real.cos (9 / 1000 : ℝ) - 1| ≤ 0.01 := by
  have h1 : Real.cos (9 / 1000 : ℝ) ≤ 1 := Real.cos_le_one _
  have h2 : 1 - (9 / 1000 : ℝ) ^ 2 / 2 ≤ Real.cos (9 / 1000) :=
    Real.one_sub_sq_div_two_le_cos
  rw [abs_of_nonpos (by linarith)]
  nlinarith

theorem not_quatDeviates_yawQ_pos : ¬ quatDeviates (yawQ (9 / 500)) := by
  simp only [quatDeviates, yawQ]
  push_neg
  rw [show (9 / 500 : ℝ) / 2 = 9 / 1000 by norm_num]
  refine ⟨by norm_num, by norm_num, ?_, ?_⟩
  · rw [abs_of_nonneg sin_small_nonneg]
    exact sin_small_le
  · exact cos_small_near_one

theorem not_quatDeviates_yawQ_neg : ¬ quatDeviates (yawQ (-(9 / 500))) := by
  simp only [quatDeviates, yawQ]
  push_neg
  rw [show (-(9 / 500) : ℝ) / 2 = -(9 / 1000) by norm_num, Real.sin_neg, Real.cos_neg,
    abs_neg]
  refine ⟨by norm_num, by norm_num, ?_, ?_⟩
  · rw [abs_of_nonneg sin_small_nonneg]
    exact sin_small_le
  · exact cos_small_near_one

theorem cex_not_hasValid : ¬ hasValidRotationData cexRotations (List.range 10) := by
  rintro ⟨fn, hfn, hdev⟩
  have hfn' : fn ∈ List.range 10 := hfn
  have hl : cexRotations.lookup fn = some cexFrameMap := by
    fin_cases hfn' <;> rfl
  rw [hl] at hdev
  rcases hdev with ⟨q, hq, hd⟩ | ⟨q, hq, hd⟩
  · have hqe : cexFrameMap.lookup "Pelvis" = some (yawQ (-(9 / 500))) := rfl
    rw [hqe] at hq
    obtain rfl := (Option.some.injEq _ _).mp hq
    exact not_quatDeviates_yawQ_neg hd
  · have hqe : cexFrameMap.lookup "R_Shoulder" = some (yawQ (9 / 500)) := rfl
    rw [hqe] at hq
    obtain rfl := (Option.some.injEq _ _).mp hq
    exact not_quatDeviates_yawQ_pos hd

theorem cex_hasValidSpec : hasValidRotationDataSpec cexRotations (List.range 10) := by
  refine ⟨0, by decide, cexFrameMap, rfl, ("Head", ⟨1, 0, 0, 0⟩), ?_, ?_⟩
  · exact List.mem_cons_self _ _
  · left
    norm_num

theorem cex_yaw_pos : (quaternionToEuler (yawQ (9 / 500))).z = 9 / 500 :=
  quaternionToEuler_yawQ_z (by nlinarith [Real.pi_gt_d6])
    (by nlinarith [Real.pi_gt_d6])

theorem cex_yaw_neg : (quaternionToEuler (yawQ (-(9 / 500)))).z = -(9 / 500) :=
  quaternionToEuler_yawQ_z (by nlinarith [Real.pi_gt_d6])
    (by nlinarith [Real.pi_gt_d6])

theorem cex_trunkSep :
    2 < trunkSepOf (some (yawQ (-(9 / 500)))) (some (yawQ (9 / 500))) := by
  have hpi : (0:ℝ) < π := Real.pi_pos
  have hlt := Real.pi_lt_d2
  simp only [trunkSepOf]
  rw [cex_yaw_pos, cex_yaw_neg]
  rw [show (9 / 500 : ℝ) - -(9 / 500) = 9 / 250 by norm_num]
  have hw : wrapAngle (9 / 250 : ℝ) = 9 / 250 := by
    have h3 := Real.pi_gt_three
    simp only [wrapAngle]
    rw [if_neg (show ¬ π < 9 / 250 by push_neg; nlinarith)]
    rw [if_neg (show ¬ (9 / 250 : ℝ) < -π by push_neg; nlinarith)]
  rw [hw, abs_of_nonneg (by positivity)]
  have h57 : (57:ℝ) < 180 / π := by
    rw [lt_div_iff₀ hpi]
    nlinarith
  nlinarith

theorem cex_lookup_computed :
    (computeMetrics cexRotations (List.range 10)).lookup 0 =
      some (computeFrameMetric cexFrameMap none 0) := rfl

theorem cex_m0_above : metricAboveThreshold (computeFrameMetric cexFrameMap none 0) := by
  right; right; right
  show 2 < trunkSepOf (some (yawQ (-(9 / 500)))) (some (yawQ (9 / 500)))
  exact cex_trunkSep

theorem cex_gate :
    ((List.range 10).length : ℝ) * 0.1 ≤
      (validFrameCount (List.range 10) (computeMetrics cexRotations (List.range 10)) : ℝ) := by
  have h0 : (0:ℕ) ∈ (List.range 10).filter (fun fn =>
      decide (∃ m, (computeMetrics cexRotations (List.range 10)).lookup fn = some m ∧
        metricAboveThreshold m)) := by
    refine List.mem_filter.mpr ⟨by decide, ?_⟩
    rw [decide_eq_true_eq]
    exact ⟨_, cex_lookup_computed, cex_m0_above⟩
  have hpos : 1 ≤ validFrameCount (List.range 10) (computeMetrics cexRotations (List.range 10)) :=
    List.length_pos.mpr (List.ne_nil_of_mem h0)
  have hcast : (1:ℝ) ≤ (validFrameCount (List.range 10)
      (computeMetrics cexRotations (List.range 10)) : ℝ) := by exact_mod_cast hpos
  have hlen : (((List.range 10).length : ℕ) : ℝ) = 10 := by
    rw [List.length_range]
    norm_num
  rw [hlen]
  linarith

theorem cex_fallback0 :
    (fallbackMetric 0 10 0 (fun _ => (1 / 2 : ℝ))).shoulderExternalRotation = 25 := by
  simp only [fallbackMetric]
  rw [show ((0:ℕ):ℝ) = 0 from Nat.cast_zero, zero_div]
  rw [if_pos (by norm_num : (0:ℝ) < 0.25)]
  rw [show (25 + 0 * 45 : ℝ) + ((1 / 2 : ℝ) - 0.5) * 10 = 25 by norm_num]
  exact max_eq_right (by norm_num)

theorem cex_computed0 :
    (computeFrameMetric cexFrameMap none 0).shoulderExternalRotation = 0 := by
  show shoulderExtRotOf (some (yawQ (9 / 500))) = 0
  simp only [shoulderExtRotOf]
  rw [quaternionToEuler_yawQ_x]
  norm_num

/-- C1 counterexample: the claim's pre-check (stage (a) over *every* joint
orientation, stage (b) computing metrics whenever some joint deviates) is
false on the code.  On `cexRotations` the `Head` joint deviates, so the
claim predicts the computed metrics (the 10% gate passes), but the code's
pre-check looks only at `Pelvis`/`R_Shoulder` and returns the fallback:
frame 0 has `shoulderExternalRotation` 25 (fallback) versus 0 (computed). -/
theorem c1_quality_gate_cex :
    ¬ (∀ (jointRotations : List (ℕ × List (String × JointRotation))) (rand : ℕ → ℝ),
        (¬ hasValidRotationDataSpec jointRotations (frameNumbersOf jointRotations) →
          calculateBiomechanics jointRotations rand =
            generateFallbackBiomechanics (frameNumbersOf jointRotations) rand) ∧
        (hasValidRotationDataSpec jointRotations (frameNumbersOf jointRotations) →
          calculateBiomechanics jointRotations rand =
            if (validFrameCount (frameNumbersOf jointRotations)
                  (computeMetrics jointRotations (frameNumbersOf jointRotations)) : ℝ) <
                ((frameNumbersOf jointRotations).length : ℝ) * 0.1 then
              generateFallbackBiomechanics (frameNumbersOf jointRotations) rand
            else computeMetrics jointRotations (frameNumbersOf jointRotations))) := by
  intro hclaim
  have hfns : frameNumbersOf cexRotations = List.range 10 := rfl
  have hpredict := (hclaim cexRotations (fun _ => 1 / 2)).2
  rw [hfns] at hpredict
  have hpredict' := hpredict cex_hasValidSpec
  rw [if_neg (not_lt.mpr cex_gate)] at hpredict'
  have hcode : calculateBiomechanics cexRotations (fun _ => 1 / 2) =
      generateFallbackBiomechanics (List.range 10) (fun _ => 1 / 2) := by
    simp only [calculateBiomechanics]
    rw [hfns, if_neg cex_not_hasValid]
  have hcontr : generateFallbackBiomechanics (List.range 10) (fun _ => 1 / 2) =
      computeMetrics cexRotations (List.range 10) := by
    rw [← hcode, hpredict']
  have h1 : (generateFallbackBiomechanics (List.range 10) (fun _ => (1 / 2 : ℝ))).lookup 0 =
      some (fallbackMetric 0 10 0 (fun _ => (1 / 2 : ℝ))) := rfl
  have h2 := congrArg (fun l => l.lookup 0) hcontr
  simp only at h2
  rw [h1, cex_lookup_computed] at h2
  have h4 : fallbackMetric 0 10 0 (fun _ => (1 / 2 : ℝ)) = computeFrameMetric cexFrameMap none 0 :=
    (Option.some.injEq _ _).mp h2
  have h5 := congrArg BaseballMetric.shoulderExternalRotation h4
  rw [cex_fallback0, cex_computed0] at h5
  norm_num at h5

/-! ## C9: quaternion ↔ Euler round trip

The spec's round-trip property needs a quaternion reconstruction from Euler
angles, which the source does not contain; `fromEulerQuat` below is the
standard intrinsic roll-pitch-yaw (ZYX) reconstruction named by the claim.
The algebra of Hamilton products on the source's `JointRotation` records is
developed here to settle the claim. -/

/-- Modelled from the spec: reconstruction of a quaternion from intrinsic
roll-pitch-yaw Euler angles (the standard ZYX half-angle formula), the
inverse construction named by claim C9. -/
def fromEulerQuat (e : EulerAngles) : JointRotation :=
  let cr := Real.cos (e.x / 2)
  let sr := Real.sin (e.x / 2)
  let cp := Real.cos (e.y / 2)
  let sp := Real.sin (e.y / 2)
  let cy := Real.cos (e.z / 2)
  let sy := Real.sin (e.z / 2)
  ⟨sr * cp * cy - cr * sp * sy,
   cr * sp * cy + sr * cp * sy,
   cr * cp * sy - sr * sp * cy,
   cr * cp * cy + sr * sp * sy⟩

/-- The Hamilton product on `JointRotation` (w real part). -/
def qmul (a b : JointRotation) : JointRotation :=
  ⟨a.w * b.x + a.x * b.w + a.y * b.z - a.z * b.y,
   a.w * b.y - a.x * b.z + a.y * b.w + a.z * b.x,
   a.w * b.z + a.x * b.y - a.y * b.x + a.z * b.w,
   a.w * b.w - a.x * b.x - a.y * b.y - a.z * b.z⟩

/-- Quaternion conjugate. -/
def qconj (a : JointRotation) : JointRotation := ⟨-a.x, -a.y, -a.z, a.w⟩

/-- Squared norm. -/
def qnormSq (a : JointRotation) : ℝ := a.x * a.x + a.y * a.y + a.z * a.z + a.w * a.w

/-- Negation (the antipodal quaternion, same rotation). -/
def qneg (a : JointRotation) : JointRotation := ⟨-a.x, -a.y, -a.z, -a.w⟩

/-- The identity quaternion. -/
def qone : JointRotation := ⟨0, 0, 0, 1⟩

/-- The pure unit `i` (x-axis). -/
def qi : JointRotation := ⟨1, 0, 0, 0⟩

/-- The pure unit `j` (y-axis). -/
def qj : JointRotation := ⟨0, 1, 0, 0⟩

/-- Conjugation action `p v p⁻¹` (for unit `p`, the rotation of `v`). -/
def conjAct (p v : JointRotation) : JointRotation := qmul (qmul p v) (qconj p)

/-- Half-angle x-rotation quaternion. -/
def qxQ (φ : ℝ) : JointRotation := ⟨Real.sin (φ / 2), 0, 0, Real.cos (φ / 2)⟩

/-- Half-angle y-rotation quaternion. -/
def qyQ (θ : ℝ) : JointRotation := ⟨0, Real.sin (θ / 2), 0, Real.cos (θ / 2)⟩

/-- Half-angle z-rotation quaternion. -/
def qzQ (ψ : ℝ) : JointRotation := ⟨0, 0, Real.sin (ψ / 2), Real.cos (ψ / 2)⟩

/-- Modelled from the spec: componentwise agreement of two quaternion records
within the claimed `1e-6` floating-point tolerance. -/
def qclose (a b : JointRotation) : Prop :=
  |a.x - b.x| ≤ 1 / 1000000 ∧ |a.y - b.y| ≤ 1 / 1000000 ∧
    |a.z - b.z| ≤ 1 / 1000000 ∧ |a.w - b.w| ≤ 1 / 1000000

theorem qmul_assoc (a b c : JointRotation) : qmul (qmul a b) c = qmul a (qmul b c) := by
  simp only [qmul, JointRotation.mk.injEq]
  refine ⟨by ring, by ring, by ring, by ring⟩

theorem qconj_qmul (a b : JointRotation) : qconj (qmul a b) = qmul (qconj b) (qconj a) := by
  simp only [qmul, qconj, JointRotation.mk.injEq]
  refine ⟨by ring, by ring, by ring, by ring⟩

theorem qmul_qone (a : JointRotation) : qmul a qone = a := by
  simp only [qmul, qone]
  refine JointRotation.ext ?_ ?_ ?_ ?_ <;> simp

theorem qone_qmul (a : JointRotation) : qmul qone a = a := by
  simp only [qmul, qone]
  refine JointRotation.ext ?_ ?_ ?_ ?_ <;> simp

theorem qnormSq_qmul (a b : JointRotation) : qnormSq (qmul a b) = qnormSq a * qnormSq b := by
  simp only [qmul, qnormSq]
  ring

theorem qnormSq_qconj (a : JointRotation) : qnormSq (qconj a) = qnormSq a := by
  simp only [qconj, qnormSq]
  ring

theorem qconj_qmul_self {a : JointRotation} (ha : qnormSq a = 1) :
    qmul (qconj a) a = qone := by
  have ha' : a.x * a.x + a.y * a.y + a.z * a.z + a.w * a.w = 1 := ha
  simp only [qmul, qconj, qone, JointRotation.mk.injEq]
  refine ⟨by ring, by ring, by ring, by linear_combination ha'⟩

theorem qmul_qconj_self {a : JointRotation} (ha : qnormSq a = 1) :
    qmul a (qconj a) = qone := by
  have ha' : a.x * a.x + a.y * a.y + a.z * a.z + a.w * a.w = 1 := ha
  simp only [qmul, qconj, qone, JointRotation.mk.injEq]
  refine ⟨by ring, by ring, by ring, by linear_combination ha'⟩

theorem conjAct_qmul (p q v : JointRotation) :
    conjAct (qmul p q) v = conjAct p (conjAct q v) := by
  simp only [conjAct, qmul, qconj, JointRotation.mk.injEq]
  refine ⟨by ring, by ring, by ring, by ring⟩

/-- Conjugation by a pure-x half-angle quaternion (homogeneous form). -/
theorem conjAct_qx (s c a b d : ℝ) :
    conjAct ⟨s, 0, 0, c⟩ ⟨a, b, d, 0⟩ =
      ⟨a * (s ^ 2 + c ^ 2), b * (c ^ 2 - s ^ 2) - d * (2 * s * c),
       b * (2 * s * c) + d * (c ^ 2 - s ^ 2), 0⟩ := by
  simp only [conjAct, qmul, qconj, JointRotation.mk.injEq]
  refine ⟨by ring, by ring, by ring, by ring⟩

/-- Conjugation by a pure-y half-angle quaternion (homogeneous form). -/
theorem conjAct_qy (s c a b d : ℝ) :
    conjAct ⟨0, s, 0, c⟩ ⟨a, b, d, 0⟩ =
      ⟨a * (c ^ 2 - s ^ 2) + d * (2 * s * c), b * (s ^ 2 + c ^ 2),
       -a * (2 * s * c) + d * (c ^ 2 - s ^ 2), 0⟩ := by
  simp only [conjAct, qmul, qconj, JointRotation.mk.injEq]
  refine ⟨by ring, by ring, by ring, by ring⟩

/-- Conjugation by a pure-z half-angle quaternion (homogeneous form). -/
theorem conjAct_qz (s c a b d : ℝ) :
    conjAct ⟨0, 0, s, c⟩ ⟨a, b, d, 0⟩ =
      ⟨a * (c ^ 2 - s ^ 2) - b * (2 * s * c), a * (2 * s * c) + b * (c ^ 2 - s ^ 2),
       d * (s ^ 2 + c ^ 2), 0⟩ := by
  simp only [conjAct, qmul, qconj, JointRotation.mk.injEq]
  refine ⟨by ring, by ring, by ring, by ring⟩

/-- The rotated x-axis, i.e. the first column of the rotation matrix of `q`
(homogeneous form). -/
theorem conjAct_qi_eq (q : JointRotation) :
    conjAct q qi =
      ⟨q.w * q.w + q.x * q.x - q.y * q.y - q.z * q.z,
       2 * (q.x * q.y + q.w * q.z), 2 * (q.x * q.z - q.w * q.y), 0⟩ := by
  simp only [conjAct, qmul, qconj, qi, JointRotation.mk.injEq]
  refine ⟨by ring, by ring, by ring, by ring⟩

/-- The rotated y-axis, i.e. the second column of the rotation matrix of `q`
(homogeneous form). -/
theorem conjAct_qj_eq (q : JointRotation) :
    conjAct q qj =
      ⟨2 * (q.x * q.y - q.w * q.z),
       q.w * q.w - q.x * q.x + q.y * q.y - q.z * q.z,
       2 * (q.y * q.z + q.w * q.x), 0⟩ := by
  simp only [conjAct, qmul, qconj, qj, JointRotation.mk.injEq]
  refine ⟨by ring, by ring, by ring, by ring⟩

/-- `fromEulerQuat` is the Hamilton product of the three half-angle axis
rotations, yaw ∘ pitch ∘ roll. -/
theorem fromEulerQuat_eq_prod (e : EulerAngles) :
    fromEulerQuat e = qmul (qzQ e.z) (qmul (qyQ e.y) (qxQ e.x)) := by
  simp only [fromEulerQuat, qmul, qzQ, qyQ, qxQ, JointRotation.mk.injEq]
  refine ⟨by ring, by ring, by ring, by ring⟩

theorem qconj_qconj (a : JointRotation) : qconj (qconj a) = a := by
  simp only [qconj, neg_neg]

theorem qmul_negone (a : JointRotation) : qmul a ⟨0, 0, 0, -1⟩ = qneg a := by
  simp only [qmul, qneg, JointRotation.mk.injEq]
  refine ⟨by ring, by ring, by ring, by ring⟩

/-- Two unit quaternions acting identically on `i` and `j` are equal up to
sign. -/
theorem conjAct_faithful {p q : JointRotation} (hp : qnormSq p = 1) (hq : qnormSq q = 1)
    (hi : conjAct p qi = conjAct q qi) (hj : conjAct p qj = conjAct q qj) :
    p = q ∨ p = qneg q := by
  have hrq : qmul (qconj q) q = qone := qconj_qmul_self hq
  have hqr : qmul q (qconj q) = qone := qmul_qconj_self hq
  set r := qmul (qconj q) p with hr
  have hrn : qnormSq r = 1 := by
    rw [hr, qnormSq_qmul, qnormSq_qconj, hq, hp, one_mul]
  have hconj_r : qconj r = qmul (qconj p) q := by
    rw [hr, qconj_qmul, qconj_qconj]
  have hact : ∀ v : JointRotation, conjAct p v = conjAct q v →
      qmul (qmul r v) (qconj r) = v := by
    intro v hv
    have hv' : qmul (qmul p v) (qconj p) = qmul (qmul q v) (qconj q) := hv
    rw [hconj_r, hr]
    rw [qmul_assoc (qconj q) p v]
    rw [qmul_assoc (qconj q) (qmul p v) (qmul (qconj p) q)]
    rw [← qmul_assoc (qmul p v) (qconj p) q]
    rw [hv']
    rw [qmul_assoc (qmul q v) (qconj q) q, hrq, qmul_qone]
    rw [← qmul_assoc (qconj q) q v, hrq, qone_qmul]
  have hi' := hact qi hi
  have hj' := hact qj hj
  have key_i : qmul r qi = qmul qi r := by
    have h2 := congrArg (fun t => qmul t r) hi'
    simp only at h2
    rw [qmul_assoc (qmul r qi) (qconj r) r, qconj_qmul_self hrn, qmul_qone] at h2
    exact h2
  have key_j : qmul r qj = qmul qj r := by
    have h2 := congrArg (fun t => qmul t r) hj'
    simp only at h2
    rw [qmul_assoc (qmul r qj) (qconj r) r, qconj_qmul_self hrn, qmul_qone] at h2
    exact h2
  have hy0 : r.y = 0 := by
    have hz := congrArg JointRotation.z key_i
    simp only [qmul, qi] at hz
    linarith
  have hz0 : r.z = 0 := by
    have hz := congrArg JointRotation.y key_i
    simp only [qmul, qi] at hz
    linarith
  have hx0 : r.x = 0 := by
    have hz := congrArg JointRotation.z key_j
    simp only [qmul, qj] at hz
    linarith
  have hw2 : r.w ^ 2 = 1 := by
    have h3 : r.x * r.x + r.y * r.y + r.z * r.z + r.w * r.w = 1 := hrn
    rw [hx0, hy0, hz0] at h3
    nlinarith
  have hre : r = ⟨r.x, r.y, r.z, r.w⟩ := rfl
  have hpq : qmul q r = p := by
    rw [hr, ← qmul_assoc, hqr, qone_qmul]
  rcases mul_eq_zero.mp (show (r.w - 1) * (r.w + 1) = 0 by linear_combination hw2) with hc | hc
  · left
    have hw1 : r.w = 1 := by linarith
    rw [hx0, hy0, hz0, hw1] at hre
    rw [hre] at hpq
    rw [show (⟨0, 0, 0, 1⟩ : JointRotation) = qone from rfl, qmul_qone] at hpq
    exact hpq.symm
  · right
    have hw1 : r.w = -1 := by linarith
    rw [hx0, hy0, hz0, hw1] at hre
    rw [hre, qmul_negone] at hpq
    exact hpq.symm

/-- Cosine and sine of `atan2 y x` for `(x, y) ≠ (0, 0)`. -/
theorem cos_sin_atan2 {y x : ℝ} (h : x ^ 2 + y ^ 2 ≠ 0) :
    Real.cos (atan2 y x) = x / Real.sqrt (x ^ 2 + y ^ 2) ∧
    Real.sin (atan2 y x) = y / Real.sqrt (x ^ 2 + y ^ 2) := by
  have hsum : (0:ℝ) < x ^ 2 + y ^ 2 := lt_of_le_of_ne (by positivity) (Ne.symm h)
  have hρ : (0:ℝ) < Real.sqrt (x ^ 2 + y ^ 2) := Real.sqrt_pos.mpr hsum
  rcases lt_trichotomy 0 x with hx | hx | hx
  · -- x > 0
    have h1 : 1 + (y / x) ^ 2 = (x ^ 2 + y ^ 2) / x ^ 2 := by
      field_simp
    have hs : Real.sqrt (1 + (y / x) ^ 2) = Real.sqrt (x ^ 2 + y ^ 2) / x := by
      rw [h1, Real.sqrt_div (by positivity) _, Real.sqrt_sq (le_of_lt hx)]
    have hatan : atan2 y x = arctan (y / x) := by
      unfold atan2
      rw [if_pos hx]
    rw [hatan, Real.cos_arctan, Real.sin_arctan, hs]
    constructor
    · rw [one_div_div]
    · rw [div_div_div_cancel_right₀]
      exact ne_of_gt hx
  · -- x = 0, so y ≠ 0
    subst hx
    have hy : y ≠ 0 := by
      intro hy0
      rw [hy0] at h
      exact h (by norm_num)
    have hry : Real.sqrt ((0:ℝ) ^ 2 + y ^ 2) = |y| := by
      rw [show ((0:ℝ) ^ 2 + y ^ 2) = y ^ 2 by ring, Real.sqrt_sq_eq_abs]
    rcases lt_or_gt_of_ne hy with hy' | hy'
    · -- y < 0
      have hatan : atan2 y 0 = -(π / 2) := by
        unfold atan2
        rw [if_neg (lt_irrefl 0), if_neg (lt_irrefl 0), if_neg (not_lt.mpr (le_of_lt hy')),
          if_pos hy']
      rw [hatan, Real.cos_neg, Real.sin_neg, Real.cos_pi_div_two, Real.sin_pi_div_two, hry,
        abs_of_neg hy']
      constructor
      · rw [zero_div]
      · rw [div_neg, div_self hy]
    · -- y > 0
      have hatan : atan2 y 0 = π / 2 := by
        unfold atan2
        rw [if_neg (lt_irrefl 0), if_neg (lt_irrefl 0), if_pos hy']
      rw [hatan, Real.cos_pi_div_two, Real.sin_pi_div_two, hry, abs_of_pos hy']
      constructor
      · rw [zero_div]
      · rw [div_self (ne_of_gt hy')]
  · -- x < 0
    have hxne : x ≠ 0 := ne_of_lt hx
    have h1 : 1 + (y / x) ^ 2 = (x ^ 2 + y ^ 2) / x ^ 2 := by
      field_simp
    have hs : Real.sqrt (1 + (y / x) ^ 2) = Real.sqrt (x ^ 2 + y ^ 2) / (-x) := by
      rw [h1, Real.sqrt_div (by positivity) _, Real.sqrt_sq_eq_abs, abs_of_neg hx]
    have hcos : Real.cos (arctan (y / x)) = x / Real.sqrt (x ^ 2 + y ^ 2) * (-1) := by
      rw [Real.cos_arctan, hs, one_div_div]
      field_simp
    have hsin : Real.sin (arctan (y / x)) = y / Real.sqrt (x ^ 2 + y ^ 2) * (-1) := by
      rw [Real.sin_arctan, hs]
      rw [div_div_eq_mul_div, div_mul_eq_mul_div, mul_comm]
      field_simp
      ring
    rcases le_or_lt 0 y with hy | hy
    · have hatan : atan2 y x = arctan (y / x) + π := by
        unfold atan2
        rw [if_neg (not_lt.mpr (le_of_lt hx)), if_pos hx, if_pos hy]
      rw [hatan, Real.cos_add_pi, Real.sin_add_pi, hcos, hsin]
      constructor <;> ring
    · have hatan : atan2 y x = arctan (y / x) - π := by
        unfold atan2
        rw [if_neg (not_lt.mpr (le_of_lt hx)), if_pos hx, if_neg (not_le.mpr hy)]
      rw [hatan, Real.cos_sub_pi, Real.sin_sub_pi, hcos, hsin]
      constructor <;> ring

theorem qnormSq_qxQ (φ : ℝ) : qnormSq (qxQ φ) = 1 := by
  simp only [qnormSq, qxQ]
  linear_combination Real.sin_sq_add_cos_sq (φ / 2)

theorem qnormSq_qyQ (θ : ℝ) : qnormSq (qyQ θ) = 1 := by
  simp only [qnormSq, qyQ]
  linear_combination Real.sin_sq_add_cos_sq (θ / 2)

theorem qnormSq_qzQ (ψ : ℝ) : qnormSq (qzQ ψ) = 1 := by
  simp only [qnormSq, qzQ]
  linear_combination Real.sin_sq_add_cos_sq (ψ / 2)

theorem cos_half_sq_sub (θ : ℝ) :
    Real.cos (θ / 2) ^ 2 - Real.sin (θ / 2) ^ 2 = Real.cos θ := by
  rw [← Real.cos_two_mul']
  congr 1
  ring

theorem sin_half_two_mul (θ : ℝ) :
    2 * Real.sin (θ / 2) * Real.cos (θ / 2) = Real.sin θ := by
  rw [← Real.sin_two_mul]
  congr 1
  ring

/-- The rotation about x by `φ` on a pure vector, in full angles. -/
theorem conjAct_qxQ_vec (φ a b d : ℝ) :
    conjAct (qxQ φ) ⟨a, b, d, 0⟩ =
      ⟨a, b * Real.cos φ - d * Real.sin φ, b * Real.sin φ + d * Real.cos φ, 0⟩ := by
  show conjAct ⟨Real.sin (φ / 2), 0, 0, Real.cos (φ / 2)⟩ ⟨a, b, d, 0⟩ = _
  rw [conjAct_qx]
  simp only [JointRotation.mk.injEq]
  refine ⟨?_, ?_, ?_, trivial⟩
  · linear_combination a * Real.sin_sq_add_cos_sq (φ / 2)
  · linear_combination b * cos_half_sq_sub φ - d * sin_half_two_mul φ
  · linear_combination b * sin_half_two_mul φ + d * cos_half_sq_sub φ

/-- The rotation about y by `θ` on a pure vector, in full angles. -/
theorem conjAct_qyQ_vec (θ a b d : ℝ) :
    conjAct (qyQ θ) ⟨a, b, d, 0⟩ =
      ⟨a * Real.cos θ + d * Real.sin θ, b, -a * Real.sin θ + d * Real.cos θ, 0⟩ := by
  show conjAct ⟨0, Real.sin (θ / 2), 0, Real.cos (θ / 2)⟩ ⟨a, b, d, 0⟩ = _
  rw [conjAct_qy]
  simp only [JointRotation.mk.injEq]
  refine ⟨?_, ?_, ?_, trivial⟩
  · linear_combination a * cos_half_sq_sub θ + d * sin_half_two_mul θ
  · linear_combination b * Real.sin_sq_add_cos_sq (θ / 2)
  · linear_combination -a * sin_half_two_mul θ + d * cos_half_sq_sub θ

/-- The rotation about z by `ψ` on a pure vector, in full angles. -/
theorem conjAct_qzQ_vec (ψ a b d : ℝ) :
    conjAct (qzQ ψ) ⟨a, b, d, 0⟩ =
      ⟨a * Real.cos ψ - b * Real.sin ψ, a * Real.sin ψ + b * Real.cos ψ, d, 0⟩ := by
  show conjAct ⟨0, 0, Real.sin (ψ / 2), Real.cos (ψ / 2)⟩ ⟨a, b, d, 0⟩ = _
  rw [conjAct_qz]
  simp only [JointRotation.mk.injEq]
  refine ⟨?_, ?_, ?_, trivial⟩
  · linear_combination a * cos_half_sq_sub ψ - b * sin_half_two_mul ψ
  · linear_combination a * sin_half_two_mul ψ + b * cos_half_sq_sub ψ
  · linear_combination d * Real.sin_sq_add_cos_sq (ψ / 2)

/-- The composed yaw-pitch-roll rotation applied to `i`. -/
theorem conjAct_prod_qi (φ θ ψ : ℝ) :
    conjAct (qmul (qzQ ψ) (qmul (qyQ θ) (qxQ φ))) qi =
      ⟨Real.cos θ * Real.cos ψ, Real.cos θ * Real.sin ψ, -Real.sin θ, 0⟩ := by
  rw [conjAct_qmul, conjAct_qmul]
  rw [show qi = (⟨1, 0, 0, 0⟩ : JointRotation) from rfl]
  rw [conjAct_qxQ_vec, conjAct_qyQ_vec, conjAct_qzQ_vec]
  simp only [JointRotation.mk.injEq]
  refine ⟨by ring, by ring, by ring, trivial⟩

/-- The composed yaw-pitch-roll rotation applied to `j`. -/
theorem conjAct_prod_qj (φ θ ψ : ℝ) :
    conjAct (qmul (qzQ ψ) (qmul (qyQ θ) (qxQ φ))) qj =
      ⟨Real.sin θ * Real.sin φ * Real.cos ψ - Real.cos φ * Real.sin ψ,
       Real.sin θ * Real.sin φ * Real.sin ψ + Real.cos φ * Real.cos ψ,
       Real.cos θ * Real.sin φ, 0⟩ := by
  rw [conjAct_qmul, conjAct_qmul]
  rw [show qj = (⟨0, 1, 0, 0⟩ : JointRotation) from rfl]
  rw [conjAct_qxQ_vec, conjAct_qyQ_vec, conjAct_qzQ_vec]
  simp only [JointRotation.mk.injEq]
  refine ⟨by ring, by ring, by ring, trivial⟩

set_option maxHeartbeats 1600000 in
/-- C9 (amended): for every unit quaternion that is not gimbal-locked
(pitch argument `2(wy − zx)` strictly inside `(-1, 1)`), converting with
`quaternionToEuler` and reconstructing with `fromEulerQuat` reproduces the
quaternion exactly up to global sign — `q` or `-q` — hence within the
claimed `1e-6` tolerance in every component. -/
theorem c9_roundtrip_amended (q : JointRotation) (hq : qnormSq q = 1)
    (hng : (2 * (q.w * q.y - q.z * q.x)) ^ 2 < 1) :
    fromEulerQuat (quaternionToEuler q) = q ∨
      fromEulerQuat (quaternionToEuler q) = qneg q := by
  have hq' : q.x * q.x + q.y * q.y + q.z * q.z + q.w * q.w = 1 := hq
  have habs : |2 * (q.w * q.y - q.z * q.x)| < 1 := (sq_lt_one_iff_abs_lt_one _).mp hng
  have heuler : quaternionToEuler q =
      ⟨atan2 (2 * (q.w * q.x + q.y * q.z)) (1 - 2 * (q.x * q.x + q.y * q.y)),
       Real.arcsin (2 * (q.w * q.y - q.z * q.x)),
       atan2 (2 * (q.w * q.z + q.x * q.y)) (1 - 2 * (q.y * q.y + q.z * q.z))⟩ := by
    rw [quaternionToEuler_unit q hq']
    rw [if_neg (not_le.mpr habs)]
  have hstep : fromEulerQuat (quaternionToEuler q) =
      qmul (qzQ (atan2 (2 * (q.w * q.z + q.x * q.y)) (1 - 2 * (q.y * q.y + q.z * q.z))))
        (qmul (qyQ (Real.arcsin (2 * (q.w * q.y - q.z * q.x))))
          (qxQ (atan2 (2 * (q.w * q.x + q.y * q.z)) (1 - 2 * (q.x * q.x + q.y * q.y))))) := by
    rw [heuler, fromEulerQuat_eq_prod]
  rw [hstep]
  set φx := atan2 (2 * (q.w * q.x + q.y * q.z)) (1 - 2 * (q.x * q.x + q.y * q.y)) with hφ
  set θx := Real.arcsin (2 * (q.w * q.y - q.z * q.x)) with hθ
  set ψx := atan2 (2 * (q.w * q.z + q.x * q.y)) (1 - 2 * (q.y * q.y + q.z * q.z)) with hψ
  have hspb := abs_lt.mp habs
  have hsinθ : Real.sin θx = 2 * (q.w * q.y - q.z * q.x) := by
    rw [hθ]
    exact Real.sin_arcsin (le_of_lt hspb.1) (le_of_lt hspb.2)
  have hcosθ : Real.cos θx = Real.sqrt (1 - (2 * (q.w * q.y - q.z * q.x)) ^ 2) := by
    rw [hθ]
    exact Real.cos_arcsin _
  set ρ := Real.sqrt (1 - (2 * (q.w * q.y - q.z * q.x)) ^ 2) with hρdef
  have hρpos : 0 < ρ := Real.sqrt_pos.mpr (by nlinarith)
  have hρne : ρ ≠ 0 := ne_of_gt hρpos
  have hρsq : ρ ^ 2 = 1 - (2 * (q.w * q.y - q.z * q.x)) ^ 2 := Real.sq_sqrt (by nlinarith)
  have hI1 : (2 * (q.w * q.x + q.y * q.z)) ^ 2 + (1 - 2 * (q.x * q.x + q.y * q.y)) ^ 2 =
      1 - (2 * (q.w * q.y - q.z * q.x)) ^ 2 := by
    linear_combination (4 * (q.x ^ 2 + q.y ^ 2)) * hq'
  have hI2 : (2 * (q.w * q.z + q.x * q.y)) ^ 2 + (1 - 2 * (q.y * q.y + q.z * q.z)) ^ 2 =
      1 - (2 * (q.w * q.y - q.z * q.x)) ^ 2 := by
    linear_combination (4 * (q.y ^ 2 + q.z ^ 2)) * hq'
  have hne1 : (1 - 2 * (q.x * q.x + q.y * q.y)) ^ 2 + (2 * (q.w * q.x + q.y * q.z)) ^ 2 ≠ 0 := by
    nlinarith [hI1]
  have hne2 : (1 - 2 * (q.y * q.y + q.z * q.z)) ^ 2 + (2 * (q.w * q.z + q.x * q.y)) ^ 2 ≠ 0 := by
    nlinarith [hI2]
  have hφcs := cos_sin_atan2 hne1
  have hψcs := cos_sin_atan2 hne2
  have hsqrt1 : Real.sqrt ((1 - 2 * (q.x * q.x + q.y * q.y)) ^ 2 +
      (2 * (q.w * q.x + q.y * q.z)) ^ 2) = ρ := by
    rw [hρdef]
    congr 1
    linarith [hI1]
  have hsqrt2 : Real.sqrt ((1 - 2 * (q.y * q.y + q.z * q.z)) ^ 2 +
      (2 * (q.w * q.z + q.x * q.y)) ^ 2) = ρ := by
    rw [hρdef]
    congr 1
    linarith [hI2]
  have hcosφ : Real.cos φx = (1 - 2 * (q.x * q.x + q.y * q.y)) / ρ := by
    rw [hφ, hφcs.1, hsqrt1]
  have hsinφ : Real.sin φx = (2 * (q.w * q.x + q.y * q.z)) / ρ := by
    rw [hφ, hφcs.2, hsqrt1]
  have hcosψ : Real.cos ψx = (1 - 2 * (q.y * q.y + q.z * q.z)) / ρ := by
    rw [hψ, hψcs.1, hsqrt2]
  have hsinψ : Real.sin ψx = (2 * (q.w * q.z + q.x * q.y)) / ρ := by
    rw [hψ, hψcs.2, hsqrt2]
  have hcosθρ : Real.cos θx = ρ := by
    rw [hcosθ]
  have hpnorm : qnormSq (qmul (qzQ ψx) (qmul (qyQ θx) (qxQ φx))) = 1 := by
    rw [qnormSq_qmul, qnormSq_qmul, qnormSq_qxQ, qnormSq_qyQ, qnormSq_qzQ]
    norm_num
  apply conjAct_faithful hpnorm hq
  · -- action on i
    rw [conjAct_prod_qi, conjAct_qi_eq]
    simp only [JointRotation.mk.injEq]
    refine ⟨?_, ?_, ?_, trivial⟩
    · rw [hcosθρ, hcosψ, mul_comm, div_mul_cancel₀ _ hρne]
      linear_combination (-1 : ℝ) * hq'
    · rw [hcosθρ, hsinψ, mul_comm, div_mul_cancel₀ _ hρne]
      ring
    · rw [hsinθ]
      ring
  · -- action on j
    have h1sp : (1 : ℝ) - (2 * (q.w * q.y - q.z * q.x)) ^ 2 ≠ 0 := by nlinarith
    rw [conjAct_prod_qj, conjAct_qj_eq]
    simp only [JointRotation.mk.injEq]
    refine ⟨?_, ?_, ?_, trivial⟩
    · rw [hsinθ, hsinφ, hcosφ, hcosψ, hsinψ]
      have hP1 : 2 * (q.w * q.y - q.z * q.x) * (2 * (q.w * q.x + q.y * q.z)) *
            (1 - 2 * (q.y * q.y + q.z * q.z)) -
          (1 - 2 * (q.x * q.x + q.y * q.y)) * (2 * (q.w * q.z + q.x * q.y)) =
          2 * (q.x * q.y - q.w * q.z) * (1 - (2 * (q.w * q.y - q.z * q.x)) ^ 2) := by
        linear_combination (-8 * q.y ^ 2 * q.z * q.w + 8 * q.x * q.y * q.z ^ 2 +
          4 * q.x * q.y) * hq'
      have hcollect : 2 * (q.w * q.y - q.z * q.x) * ((2 * (q.w * q.x + q.y * q.z)) / ρ) *
            ((1 - 2 * (q.y * q.y + q.z * q.z)) / ρ) -
          ((1 - 2 * (q.x * q.x + q.y * q.y)) / ρ) * ((2 * (q.w * q.z + q.x * q.y)) / ρ) =
          (2 * (q.w * q.y - q.z * q.x) * (2 * (q.w * q.x + q.y * q.z)) *
            (1 - 2 * (q.y * q.y + q.z * q.z)) -
            (1 - 2 * (q.x * q.x + q.y * q.y)) * (2 * (q.w * q.z + q.x * q.y))) / ρ ^ 2 := by
        field_simp
        left
        ring
      rw [hcollect, hP1, hρsq]
      exact mul_div_cancel_right₀ _ h1sp
    · rw [hsinθ, hsinφ, hcosφ, hcosψ, hsinψ]
      have hP2 : 2 * (q.w * q.y - q.z * q.x) * (2 * (q.w * q.x + q.y * q.z)) *
            (2 * (q.w * q.z + q.x * q.y)) +
          (1 - 2 * (q.x * q.x + q.y * q.y)) * (1 - 2 * (q.y * q.y + q.z * q.z)) =
          (q.w * q.w - q.x * q.x + q.y * q.y - q.z * q.z) *
            (1 - (2 * (q.w * q.y - q.z * q.x)) ^ 2) := by
        linear_combination (4 * q.y ^ 2 * q.w ^ 2 - 4 * q.x ^ 2 * q.z ^ 2 +
          4 * q.y ^ 2 - 1) * hq'
      have hcollect : 2 * (q.w * q.y - q.z * q.x) * ((2 * (q.w * q.x + q.y * q.z)) / ρ) *
            ((2 * (q.w * q.z + q.x * q.y)) / ρ) +
          ((1 - 2 * (q.x * q.x + q.y * q.y)) / ρ) * ((1 - 2 * (q.y * q.y + q.z * q.z)) / ρ) =
          (2 * (q.w * q.y - q.z * q.x) * (2 * (q.w * q.x + q.y * q.z)) *
            (2 * (q.w * q.z + q.x * q.y)) +
            (1 - 2 * (q.x * q.x + q.y * q.y)) * (1 - 2 * (q.y * q.y + q.z * q.z))) / ρ ^ 2 := by
        field_simp
        left
        ring
      rw [hcollect, hP2, hρsq]
      exact mul_div_cancel_right₀ _ h1sp
    · rw [hcosθρ, hsinφ, mul_comm, div_mul_cancel₀ _ hρne]
      ring

/-- Witness for `c9_roundtrip_amended` at the identity quaternion. -/
theorem c9_roundtrip_amended_witness :
    qnormSq qone = 1 ∧ (2 * (qone.w * qone.y - qone.z * qone.x)) ^ 2 < 1 ∧
      (fromEulerQuat (quaternionToEuler qone) = qone ∨
        fromEulerQuat (quaternionToEuler qone) = qneg qone) :=
  ⟨by norm_num [qone, qnormSq], by norm_num [qone],
    c9_roundtrip_amended qone (by norm_num [qone, qnormSq]) (by norm_num [qone])⟩

/-- C9 (counterexample): the claim as stated — every unit quaternion
round-trips through `quaternionToEuler` and the Euler reconstruction to `q` or
`-q` within `1e-6` per component — is false.  At the gimbal-locked unit
quaternion `(1/2, 1/2, -1/2, 1/2)` the pitch argument saturates to `1`, the
extracted angles are `(0, π/2, 0)`, and the reconstruction returns
`(0, √2/2, 0, √2/2)`, whose first component differs from `±1/2` by `1/2`. -/
theorem c9_roundtrip_cex :
    ¬ ∀ q : JointRotation, qnormSq q = 1 →
        (qclose (fromEulerQuat (quaternionToEuler q)) q ∨
          qclose (fromEulerQuat (quaternionToEuler q)) (qneg q)) := by
  intro h
  have hq0 : qnormSq (⟨1/2, 1/2, -(1/2), 1/2⟩ : JointRotation) = 1 := by
    norm_num [qnormSq]
  have hq0' : (⟨1/2, 1/2, -(1/2), 1/2⟩ : JointRotation).x *
        (⟨1/2, 1/2, -(1/2), 1/2⟩ : JointRotation).x +
      (⟨1/2, 1/2, -(1/2), 1/2⟩ : JointRotation).y *
        (⟨1/2, 1/2, -(1/2), 1/2⟩ : JointRotation).y +
      (⟨1/2, 1/2, -(1/2), 1/2⟩ : JointRotation).z *
        (⟨1/2, 1/2, -(1/2), 1/2⟩ : JointRotation).z +
      (⟨1/2, 1/2, -(1/2), 1/2⟩ : JointRotation).w *
        (⟨1/2, 1/2, -(1/2), 1/2⟩ : JointRotation).w = 1 := by
    norm_num
  have hs1 : jsSign 1 = 1 := by norm_num [jsSign]
  have heul : quaternionToEuler (⟨1/2, 1/2, -(1/2), 1/2⟩ : JointRotation) =
      ⟨0, π / 2, 0⟩ := by
    rw [quaternionToEuler_unit _ hq0']
    norm_num [atan2_zero_zero, hs1]
  have hrec : fromEulerQuat (⟨0, π / 2, 0⟩ : EulerAngles) =
      ⟨0, Real.sin (π / 2 / 2), 0, Real.cos (π / 2 / 2)⟩ := by
    simp only [fromEulerQuat]
    norm_num
  have hx : (fromEulerQuat (quaternionToEuler
      (⟨1/2, 1/2, -(1/2), 1/2⟩ : JointRotation))).x = 0 := by
    rw [heul, hrec]
  rcases h _ hq0 with hc | hc
  · have h1 := hc.1
    rw [hx] at h1
    norm_num at h1
    rw [abs_of_nonneg (show (0:ℝ) ≤ 1/2 by norm_num)] at h1
    norm_num at h1
  · have h1 := hc.1
    rw [hx] at h1
    norm_num [qneg] at h1
    rw [abs_of_nonneg (show (0:ℝ) ≤ 1/2 by norm_num)] at h1
    norm_num at h1

end PitchVision
